import Mathlib

/-!
Shallow embedding of the sandbox bundler Manager (module store, resolver,
incremental update, serialization and evaluation entry points) together with
proofs settling the behavioural claims about it.

The Manager methods are translated from the source; collaborators that the
source only imports (path utilities, the dependency-name helper, the query
splitter, the error classes, the serialized TranspiledModule internals and
the npm fetcher) are modelled from the specification, each marked by a doc
comment starting with `Modelled from the spec:`.  The external
browser-resolve library is abstracted as an oracle argument shared by the
synchronous and asynchronous resolvers, which invoke it with identical
options in the source.
-/

namespace Sandbox

/-- JS truthiness of an optional string value: `undefined` and the empty
string are falsy, every other string is truthy. -/
def jsTruthy (o : Option String) : Bool := o.getD "" ≠ ""

/-- Character-level prefix test (the built-in string search primitives do
not reduce inside the kernel, so the string helpers work on `List Char`). -/
def strStartsWith (s pre : String) : Bool :=
  pre.toList.isPrefixOf s.toList

/-- Character-level suffix test. -/
def strEndsWith (s suf : String) : Bool :=
  suf.toList.isSuffixOf s.toList

/-- Substring containment, as JS `String.includes`. -/
def containsSub (s sub : String) : Bool :=
  s.toList.tails.any (fun t => sub.toList.isPrefixOf t)

/-- First-occurrence replacement on characters: the leftmost occurrence of
the pattern is replaced, the rest of the string is kept. -/
def replaceFirstChars (pat repl : List Char) : List Char → List Char
  | [] => []
  | c :: rest =>
    if pat.isPrefixOf (c :: rest) then repl ++ (c :: rest).drop pat.length
    else c :: replaceFirstChars pat repl rest

/-- First-occurrence replacement, as JS `String.replace` called with a plain
string pattern. -/
def replaceFirst (s pat repl : String) : String :=
  String.mk (replaceFirstChars pat.toList repl.toList s.toList)

/-- Split on a separator character, keeping empty segments, as
`String.split` does. -/
def splitOnChar (c : Char) : List Char → List (List Char)
  | [] => [[]]
  | d :: rest =>
    let r := splitOnChar c rest
    if d = c then [] :: r
    else
      match r with
      | [] => [[d]]
      | h :: t => (d :: h) :: t

/-- The `/`-separated segments of a string (empty segments kept). -/
def splitSlash (s : String) : List String :=
  (splitOnChar '/' s.toList).map String.mk

/-- The `!`-separated segments of a string (empty segments kept). -/
def splitBang (s : String) : List String :=
  (splitOnChar '!' s.toList).map String.mk

/-- The suffix of `s` after the last occurrence of the nonempty pattern, or
`none` when the pattern does not occur. -/
def afterLastOccurrence (pat : List Char) : List Char → Option (List Char)
  | [] => none
  | c :: rest =>
    match afterLastOccurrence pat rest with
    | some r => some r
    | none =>
      if pat.isPrefixOf (c :: rest) then some ((c :: rest).drop pat.length)
      else none

/-- Modelled from the spec: POSIX `dirname` of the path utilities module the
source imports (everything before the last separator; the parent of a
root-level entry is the root, of a bare name the current directory). -/
def dirname (p : String) : String :=
  let hasRoot := strStartsWith p "/"
  let segs := (splitSlash p).filter (fun s => s ≠ "")
  match segs with
  | [] => if hasRoot then "/" else "."
  | [_] => if hasRoot then "/" else "."
  | _ =>
    (if hasRoot then "/" else "") ++ String.intercalate "/" segs.dropLast

/-- Modelled from the spec: POSIX `basename` (the last path segment). -/
def basename (p : String) : String :=
  (((splitSlash p).filter (fun s => s ≠ "")).getLastD p)

/-- Segment normalization used by `pathJoin`: drops `.` segments and lets
`..` cancel the previous segment. -/
def normalizeSegs (segs : List String) (abs : Bool) : List String :=
  (segs.foldl
    (fun acc s =>
      if s = ".." then
        match acc with
        | [] => if abs then [] else [".."]
        | x :: rest => if x = ".." then s :: acc else rest
      else s :: acc)
    []).reverse

/-- Modelled from the spec: POSIX `join` of the path utilities module
(concatenates the parts and normalizes `.`, `..` and duplicate slashes). -/
def pathJoin (parts : List String) : String :=
  let joined := String.intercalate "/" (parts.filter (fun s => s ≠ ""))
  let abs := strStartsWith joined "/"
  let segs := (splitSlash joined).filter (fun s => s ≠ "" && s ≠ ".")
  let out := String.intercalate "/" (normalizeSegs segs abs)
  if abs then "/" ++ out else if out = "" then "." else out

/-- The regex `^(\w|@\w)` of the source: the request names a package (starts
with a word character, or `@` followed by a word character). -/
def startsAsDependency (s : String) : Bool :=
  match s.toList with
  | [] => false
  | c :: rest =>
    (c.isAlphanum || c = '_') ||
      (c = '@' && (match rest with
        | [] => false
        | d :: _ => d.isAlphanum || d = '_'))

/-- Modelled from the spec: the dependency-name helper the source imports;
for a request such as `lodash/map` it returns the top-level package name,
keeping the scope segment for `@scope/pkg/...` names. -/
def getDependencyName (path : String) : String :=
  let parts := splitSlash path
  if strStartsWith path "@" then String.intercalate "/" (parts.take 2)
  else parts.headD path

/-- Modelled from the spec: the loader-query splitter the source imports; a
request `loader1!loader2!path` splits into the query (the joined loader
part) and the module path (the last segment). First component: query path;
second component: module path. -/
def splitQueryFromPath (path : String) : String × String :=
  let parts := splitBang path
  (String.intercalate "!" parts.dropLast, parts.getLastD path)

/-- Modelled from the spec: the canonical dependency-query encoding produced
by the `dependencies-to-query` helper, used as the persisted-cache key. -/
def dependenciesToQuery (deps : List (String × String)) : String :=
  String.intercalate "&" (deps.map (fun d => d.1 ++ "@" ++ d.2))

/-- Association-list lookup (JS object property read). -/
def alookup {β : Type} : List (String × β) → String → Option β
  | [], _ => none
  | (k, v) :: rest, key => if k = key then some v else alookup rest key

/-- Association-list write (JS object property assignment: replaces the
binding when the key is present, appends it otherwise). -/
def aset {β : Type} : List (String × β) → String → β → List (String × β)
  | [], key, v => [(key, v)]
  | (k, w) :: rest, key, v =>
    if k = key then (key, v) :: rest else (k, w) :: aset rest key v

/-- Association-list delete (JS `delete` of an object property: the key
disappears from the object). -/
def aerase {β : Type} (l : List (String × β)) (key : String) :
    List (String × β) :=
  l.filter (fun p => p.1 ≠ key)

/-- A source module: absolute virtual path, code, the optional pretranspiled
require list, the npm-fetch flag and the loader-child marker (the `parent`
back-reference of the source collapsed to presence). -/
structure Module where
  path : String
  code : String
  requires : Option (List String) := none
  downloaded : Bool := false
  parent : Bool := false
deriving Repr, DecidableEq

/-- Modelled from the spec: the TranspiledModule node of the compile graph,
restricted to the state the Manager methods under study read or write
(transpiled source, compiled exports, errors, the missing-dependency flag,
the entry and test-file flags, and the HMR dirty bit). -/
structure TranspiledModule where
  module : Module
  query : String
  source : Option String := none
  compilation : Option String := none
  errors : List String := []
  hasMissingDependencies : Bool := false
  isTestFile : Bool := false
  isEntry : Bool := false
  hmrDirty : Bool := false
deriving Repr, DecidableEq

/-- Modelled from the spec: the unique TranspiledModule identifier derived
from the pair of module path and query. -/
def TranspiledModule.getId (tm : TranspiledModule) : String :=
  tm.module.path ++ ":" ++ tm.query

/-- Modelled from the spec: invalidation on a module update resets the
transpiled source and the compiled exports and marks the HMR state dirty. -/
def TranspiledModule.update (tm : TranspiledModule) (m : Module) :
    TranspiledModule :=
  { tm with module := m, source := none, compilation := none, hmrDirty := true }

/-- Modelled from the spec: resetting the transpilation state clears the
transpiled source so that `shouldTranspile` holds again. -/
def TranspiledModule.resetTranspilation (tm : TranspiledModule) :
    TranspiledModule :=
  { tm with source := none }

/-- Modelled from the spec: a TranspiledModule needs transpiling when it has
no transpiled source (the transitive stale-transpilation-dependency case is
not modelled; it only enlarges the retranspile set). -/
def TranspiledModule.shouldTranspile (tm : TranspiledModule) : Bool :=
  tm.source.isNone

/-- Modelled from the spec: evaluating a TranspiledModule records its
compiled exports and clears the HMR dirty bit; returns the updated node and
the exports. -/
def TranspiledModule.evaluate (tm : TranspiledModule) :
    TranspiledModule × String :=
  let exports := tm.source.getD tm.module.code
  ({ tm with compilation := some exports, hmrDirty := false }, exports)

/-- A top-level dependency entry of the manifest. -/
structure ManifestDependency where
  name : String
  version : String
deriving Repr, DecidableEq

/-- A nested dependency entry of the manifest. -/
structure DepDepInfo where
  semver : String
  resolved : String
  parents : List String
deriving Repr, DecidableEq

/-- A precomputed content entry of the manifest. -/
structure ManifestContentEntry where
  content : String
  requires : List String
deriving Repr, DecidableEq

/-- The dependency manifest, as declared in the source. -/
structure Manifest where
  contents : List (String × ManifestContentEntry)
  dependencies : List ManifestDependency
  dependencyDependencies : List (String × DepDepInfo)
  dependencyAliases : List (String × List (String × String))
deriving Repr, DecidableEq

/-- Modelled from the spec: the slice of the preset policy object the
Manager methods under study consume. -/
structure Preset where
  getAliasedPath : String → String
  ignoredExtensions : List String
  hasDotEnv : Bool := false

/-- Modelled from the spec: the sandbox configuration entry consumed by
`updateData`. -/
structure SandboxConfig where
  hardReloadOnChange : Bool
deriving Repr, DecidableEq

/-- Modelled from the spec: the parsed configuration bundle, restricted to
the fields the Manager methods under study read. -/
structure Configurations where
  sandbox : Option SandboxConfig := none
  baseUrl : Option String := none
deriving Repr, DecidableEq

/-- The HMR status values of the source. -/
inductive HMRStatus where
  | idle | check | apply | fail | dispose
deriving Repr, DecidableEq

/-- The Manager stage values of the source. -/
inductive Stage where
  | transpilation | evaluation
deriving Repr, DecidableEq

/-- Modelled from the spec: the error kinds surfaced by resolution.  The
first two mirror the imported error classes (a `ModuleNotFoundError` carries
its path, the dependency classification and the origin path; a
`DependencyNotFoundError` carries the unknown path and the origin path); a
`typeError` stands for the JS TypeError raised by reading a property of
`undefined`; a `genericError` is a plain `new Error(message)`. -/
inductive ResolveError where
  | moduleNotFound (path : String) (isDependency : Bool) (fromPath : String)
  | dependencyNotFound (path : String) (fromPath : String)
  | typeError (message : String)
  | genericError (message : String)
deriving Repr, DecidableEq

/-- The outcome of a fallible Manager operation. -/
inductive ResolveResult (α : Type) where
  | ok (value : α)
  | err (error : ResolveError)
deriving Repr, DecidableEq

/-- The observable outcome of `evaluateModule`: either the host page was
reloaded, or evaluation produced exports. -/
inductive EvalOutcome where
  | pageReloaded
  | evaluated (exports : String)
deriving Repr, DecidableEq

/-- The per-path registry entry: the module and its transpiled variants
keyed by query. -/
structure TModuleEntry where
  module : Module
  tModules : List (String × TranspiledModule) := []
deriving Repr, DecidableEq

/-- The Manager state: the transpiled-module registry (the hash-indexed
registry of the source is derived from it, since the source keeps both in
sync and the hash determines the pair of path and query), the resolver
cache, the manifest, the incoming module map, the preset, configurations,
the lifecycle flags and the optional host file resolver.  `combinedMetas`
models the session-global set of known npm file paths. -/
structure ManagerState where
  transpiledModules : List (String × TModuleEntry) := []
  cachedPaths : List (String × List (String × String)) := []
  manifest : Manifest := { contents := [], dependencies := [],
                           dependencyDependencies := [], dependencyAliases := [] }
  modules : List (String × Module) := []
  preset : Preset
  configurations : Configurations := {}
  hardReload : Bool := false
  isFirstLoad : Bool := true
  webpackHMR : Bool := false
  hmrStatus : HMRStatus := HMRStatus.idle
  stage : Stage := Stage.transpilation
  fileResolver : Option (String → String) := none
  envVariables : List (String × String) := []
  transpileJobs : List String := []
  combinedMetas : List String := []

/-- The Node built-in names that resolve to the empty shim, as listed in the
source. -/
def NODE_LIBS : List String :=
  ["dgram", "net", "tls", "fs", "module", "child_process"]

/-- The fixed empty-shim module of the source (its path is the join of
`/node_modules`, `empty` and `index.js`). -/
def SHIMMED_MODULE : Module :=
  { path := pathJoin ["/node_modules", "empty", "index.js"],
    code := "// empty", requires := some [] }

/-- The shimmed module returned for a request, relocated next to the
requesting file, as in the source. -/
def getShimmedModuleFromPath (currentPath path : String) : Module :=
  { SHIMMED_MODULE with path := pathJoin [dirname currentPath, path] }

/-- Modelled from the spec: the core-library shim table the source imports,
redirecting certain built-in names to the empty-shim sentinel; two
representative entries stand for its contents, which no claim depends on. -/
def coreLibraries : List (String × String) :=
  [("assert", "//empty.js"), ("punycode", "//empty.js")]

/-- Modelled from the spec: the compiler version constant the source
imports; persisted caches restore only under an equal version. -/
def SCRIPT_VERSION : String := "script-version-1"

/-- `addModule`: registers a module path if absent, preserving an existing
entry (and with it the transpiled variants). -/
def addModule (st : ManagerState) (m : Module) : ManagerState :=
  match alookup st.transpiledModules m.path with
  | some _ => st
  | none =>
    { st with transpiledModules :=
        (aset st.transpiledModules m.path { module := m }) }

/-- `addTranspiledModule`: stores the module unconditionally and registers a
fresh TranspiledModule under the query (the hash-indexed registry of the
source is derived and needs no separate write). -/
def addTranspiledModule (st : ManagerState) (m : Module) (query : String) :
    ManagerState × TranspiledModule :=
  let st := addModule st m
  let entry := (alookup st.transpiledModules m.path).getD { module := m }
  let tm : TranspiledModule := { module := m, query := query }
  let entry := { entry with module := m, tModules := aset entry.tModules query tm }
  ({ st with transpiledModules := aset st.transpiledModules m.path entry }, tm)

/-- `getTranspiledModule`: fetches the variant for the query, creating the
module entry and the variant when absent. -/
def getTranspiledModule (st : ManagerState) (m : Module) (query : String) :
    ManagerState × TranspiledModule :=
  let st := addModule st m
  match alookup st.transpiledModules m.path with
  | some entry =>
    match alookup entry.tModules query with
    | some tm => (st, tm)
    | none => addTranspiledModule st m query
  | none => addTranspiledModule st m query

/-- All registered TranspiledModules (the value list of the derived
hash-indexed registry). -/
def getTranspiledModules (st : ManagerState) : List TranspiledModule :=
  (st.transpiledModules.map (fun p => p.2.tModules.map Prod.snd)).flatten

/-- All registered modules. -/
def getModules (st : ManagerState) : List Module :=
  st.transpiledModules.map (fun p => p.2.module)

/-- `removeModule`: resets the whole resolver cache (the file structure
changed), disposes every variant of the path and drops its entry. -/
def removeModule (st : ManagerState) (m : Module) : ManagerState :=
  let st := { st with cachedPaths := [] }
  { st with transpiledModules := aerase st.transpiledModules m.path }

/-- `updateModule`: replaces the stored module and propagates the update
through all its variants, returning the updated variants. -/
def updateModule (st : ManagerState) (m : Module) :
    ManagerState × List (String × TranspiledModule) :=
  match alookup st.transpiledModules m.path with
  | none => (st, [])
  | some entry =>
    let newTMs := entry.tModules.map (fun p => (p.1, p.2.update m))
    ({ st with transpiledModules :=
        (aset st.transpiledModules m.path
          { module := m, tModules := newTMs }) },
     newTMs)

/-- Lookup of one TranspiledModule by its registry key (path and query). -/
def lookupTM (st : ManagerState) (key : String × String) :
    Option TranspiledModule :=
  match alookup st.transpiledModules key.1 with
  | none => none
  | some entry => alookup entry.tModules key.2

/-- Pointwise replacement of one TranspiledModule in the registry (the
source mutates the shared node object in place). -/
def setTM (st : ManagerState) (key : String × String) (tm : TranspiledModule) :
    ManagerState :=
  match alookup st.transpiledModules key.1 with
  | none => st
  | some entry =>
    { st with transpiledModules :=
        (aset st.transpiledModules key.1
          { entry with tModules := aset entry.tModules key.2 tm }) }

/-- All registry keys (path and query pairs). -/
def allTMKeys (st : ManagerState) : List (String × String) :=
  (st.transpiledModules.map (fun p => p.2.tModules.map (fun q => (p.1, q.1)))).flatten

/-- `getPresetAliasedPath`: the preset alias of the request with everything
up to the sandbox-root placeholder stripped (the greedy regex removes
through the last occurrence). -/
def getPresetAliasedPath (st : ManagerState) (path : String) : String :=
  let aliased := st.preset.getAliasedPath path
  match afterLastOccurrence "\x7b\x7bsandboxRoot\x7d\x7d".toList aliased.toList with
  | none => aliased
  | some r => String.mk r

/-- `getAliasedDependencyPath`: rewrites the top-level package segment of a
request issued from inside `/node_modules` when the manifest declares a
dependency alias for the requesting package. -/
def getAliasedDependencyPath (st : ManagerState) (path currentPath : String) :
    String :=
  if !startsAsDependency path then path
  else if !strStartsWith currentPath "/node_modules" then path
  else
    let dependencyName := getDependencyName path
    let previousDependencyName :=
      getDependencyName (replaceFirst currentPath "/node_modules/" "")
    match alookup st.manifest.dependencyAliases previousDependencyName with
    | none => path
    | some table =>
      match alookup table dependencyName with
      | none => path
      | some aliased => replaceFirst path dependencyName aliased

/-- The resolver preamble shared verbatim by the synchronous and the
asynchronous variant: initialize the per-directory cache bucket when it is
still undefined. -/
def ensureDir (st : ManagerState) (dir : String) : ManagerState :=
  match alookup st.cachedPaths dir with
  | some _ => st
  | none => { st with cachedPaths := aset st.cachedPaths dir [] }

/-- Read of the two-level resolver cache. -/
def cachedLookup (st : ManagerState) (dir request : String) : Option String :=
  match alookup st.cachedPaths dir with
  | none => none
  | some bucket => alookup bucket request

/-- Write of the two-level resolver cache. -/
def cacheWrite (st : ManagerState) (dir request value : String) : ManagerState :=
  { st with cachedPaths :=
      (aset st.cachedPaths dir
        (aset ((alookup st.cachedPaths dir).getD []) request value)) }

/-- The guarded cache purge of the catch blocks: the entry is deleted only
when the bucket exists and the stored value is truthy (JS truthiness keeps
an empty-string value in place). -/
def cacheEraseGuarded (st : ManagerState) (dir request : String) : ManagerState :=
  match alookup st.cachedPaths dir with
  | none => st
  | some bucket =>
    match alookup bucket request with
    | none => st
    | some v =>
      if v ≠ "" then
        { st with cachedPaths := aset st.cachedPaths dir (aerase bucket request) }
      else st

/-- The rewritten request both resolvers hand to the external resolver:
preset aliasing, then manifest dependency aliasing, then the core-library
shim table. -/
def shimmedPathOf (st : ManagerState) (path currentPath : String) : String :=
  let presetAliasedPath := getPresetAliasedPath st path
  let aliasedPath := getAliasedDependencyPath st presetAliasedPath currentPath
  (alookup coreLibraries aliasedPath).getD aliasedPath

/-- The connected path computed by the failure classification of both catch
blocks: the rewritten request anchored under `/node_modules` for bare
package names and next to the requesting file otherwise. -/
def connectedPathOf (shimmedPath currentPath : String) : String :=
  if strStartsWith shimmedPath "/node_modules" then shimmedPath
  else if startsAsDependency shimmedPath then
    pathJoin ["/node_modules", shimmedPath]
  else pathJoin [dirname currentPath, shimmedPath]

/-- Whether the manifest knows a package name, as tested by both catch
blocks: it appears among the top-level dependencies or among the nested
dependency map keys. -/
def manifestKnows (man : Manifest) (name : String) : Bool :=
  man.dependencies.any (fun d => d.name = name) ||
    (alookup man.dependencyDependencies name).isSome

/-- The error classification of both catch blocks: compute the connected
path; outside `/node_modules` the failure is an unflagged module-not-found
error, under `/node_modules` it is a dependency-flagged module-not-found
error when the manifest knows the package and a dependency-not-found error
otherwise. -/
def classifyResolveError (man : Manifest) (shimmedPath currentPath : String) :
    ResolveError :=
  let connectedPath := connectedPathOf shimmedPath currentPath
  let isDependency := containsSub connectedPath "/node_modules/"
  let stripped := replaceFirst connectedPath "/node_modules/" ""
  if !isDependency then
    ResolveError.moduleNotFound shimmedPath false currentPath
  else if manifestKnows man (getDependencyName stripped) then
    ResolveError.moduleNotFound stripped true currentPath
  else
    ResolveError.dependencyNotFound stripped currentPath

/-- The shared catch block of both resolvers: purge the cache entry for the
request (guarded by JS truthiness, which keeps empty-string values) and
classify the failure (the purge only touches the cache, so the
classification reads the unchanged manifest). -/
def resolveCatch (st : ManagerState)
    (dirredPath request shimmedPath currentPath : String) :
    ManagerState × ResolveError :=
  (cacheEraseGuarded st dirredPath request,
   classifyResolveError st.manifest shimmedPath currentPath)

/-- The cache-miss body of the synchronous `resolveModule`: Node-lib names
short-circuit to the shim (after writing the cache), otherwise the external
resolver runs; a found path is cached and must be present in the store (the
sentinel `//empty.js` yields the shim), every failure goes through the
shared catch block. -/
def resolveNoCacheSync (st : ManagerState)
    (oracle : String → String → List String → Option String)
    (path currentPath : String) (defaultExtensions : List String)
    (dirredPath : String) : ManagerState × ResolveResult Module × Bool :=
  let shimmedPath := shimmedPathOf st path currentPath
  if NODE_LIBS.contains shimmedPath then
    (cacheWrite st dirredPath path shimmedPath,
     ResolveResult.ok (getShimmedModuleFromPath currentPath path), false)
  else
    match oracle shimmedPath currentPath defaultExtensions with
    | none =>
      let r := resolveCatch st dirredPath path shimmedPath currentPath
      (r.1, ResolveResult.err r.2, false)
    | some resolvedPath =>
      let st1 := cacheWrite st dirredPath path resolvedPath
      if resolvedPath = "//empty.js" then
        (st1, ResolveResult.ok (getShimmedModuleFromPath currentPath path), false)
      else
        match alookup st1.transpiledModules resolvedPath with
        | some entry => (st1, ResolveResult.ok entry.module, false)
        | none =>
          let r := resolveCatch st1 dirredPath path shimmedPath currentPath
          (r.1, ResolveResult.err r.2, false)

/-- `resolveModule` (the synchronous variant).  The external browser-resolve
call is abstracted by `oracle` (request, origin file, extension list); the
third output component records whether the answer came from the resolver
cache (the first branch of the source).  The cached path is honoured only
when it is truthy and the module store still holds it. -/
def resolveModuleSync (st0 : ManagerState)
    (oracle : String → String → List String → Option String)
    (path currentPath : String) (defaultExtensions : List String) :
    ManagerState × ResolveResult Module × Bool :=
  let dirredPath := dirname currentPath
  let st := ensureDir st0 dirredPath
  let cachedPath := cachedLookup st dirredPath path
  let cachedEntry :=
    if jsTruthy cachedPath then
      alookup st.transpiledModules (cachedPath.getD "")
    else none
  match cachedEntry with
  | some entry =>
    if cachedPath.getD "" = "//empty.js" then
      (st, ResolveResult.ok (getShimmedModuleFromPath currentPath path), true)
    else
      (st, ResolveResult.ok entry.module, true)
  | none => resolveNoCacheSync st oracle path currentPath defaultExtensions dirredPath

/-- The cache-miss body of `resolveModuleAsync`: identical to the
synchronous one except for the last arm, where a found path missing from
the store is read through `readFileSync` (adding the file via the host
file resolver when one is configured, and storing the ENOENT error object
— modelled by its message — as the code otherwise) instead of failing. -/
def resolveNoCacheAsync (st : ManagerState)
    (oracle : String → String → List String → Option String)
    (path currentPath : String) (defaultExtensions : List String)
    (dirredPath : String) : ManagerState × ResolveResult Module :=
  let shimmedPath := shimmedPathOf st path currentPath
  if NODE_LIBS.contains shimmedPath then
    (cacheWrite st dirredPath path shimmedPath,
     ResolveResult.ok (getShimmedModuleFromPath currentPath path))
  else
    match oracle shimmedPath currentPath defaultExtensions with
    | none =>
      let r := resolveCatch st dirredPath path shimmedPath currentPath
      (r.1, ResolveResult.err r.2)
    | some resolvedPath =>
      let st1 := cacheWrite st dirredPath path resolvedPath
      if resolvedPath = "//empty.js" then
        (st1, ResolveResult.ok (getShimmedModuleFromPath currentPath path))
      else
        match alookup st1.transpiledModules resolvedPath with
        | some entry => (st1, ResolveResult.ok entry.module)
        | none =>
          match st1.fileResolver with
          | some fr =>
            let m : Module := { path := resolvedPath, code := fr resolvedPath }
            (addModule st1 m, ResolveResult.ok m)
          | none =>
            let m : Module :=
              { path := resolvedPath,
                code := "Could not find " ++ resolvedPath }
            (addModule st1 m, ResolveResult.ok m)

/-- `resolveModuleAsync`.  Kept in sync with the synchronous variant as the
source demands, with its two deviations translated faithfully: the cached
branch trusts the cache without checking the module store (reading the
module of an absent entry rejects with a TypeError and keeps the entry),
and a resolved path missing from the store is read through `readFileSync`
instead of failing.  The promise executor is modelled with synchronous
callback delivery. -/
def resolveModuleAsync (st0 : ManagerState)
    (oracle : String → String → List String → Option String)
    (path currentPath : String) (defaultExtensions : List String) :
    ManagerState × ResolveResult Module :=
  let dirredPath := dirname currentPath
  let st := ensureDir st0 dirredPath
  let cachedPath := cachedLookup st dirredPath path
  if jsTruthy cachedPath then
    let resolvedPath := cachedPath.getD ""
    match alookup st.transpiledModules resolvedPath with
    | some entry => (st, ResolveResult.ok entry.module)
    | none =>
      (st, ResolveResult.err
        (ResolveError.typeError "Cannot read property module of undefined"))
  else resolveNoCacheAsync st oracle path currentPath defaultExtensions dirredPath

/-- `resolveTranspiledModule`: rejects `webpack:` requests outright, splits
the loader query from the request and resolves the module path through the
variant selected by the `async` flag, returning the TranspiledModule for
the resolved module under the split query. -/
def resolveTranspiledModule (st : ManagerState)
    (oracle : String → String → List String → Option String)
    (path currentPath : String) (ignoredExtensions : Option (List String))
    (async : Bool) : ManagerState × ResolveResult TranspiledModule :=
  if strStartsWith path "webpack:" then
    (st, ResolveResult.err (ResolveError.genericError "Cannot resolve webpack path"))
  else
    let qp := splitQueryFromPath path
    let exts := ignoredExtensions.getD st.preset.ignoredExtensions
    if async then
      match resolveModuleAsync st oracle qp.2 currentPath exts with
      | (st, ResolveResult.ok m) =>
        let r := getTranspiledModule st m qp.1
        (r.1, ResolveResult.ok r.2)
      | (st, ResolveResult.err e) => (st, ResolveResult.err e)
    else
      match resolveModuleSync st oracle qp.2 currentPath exts with
      | (st, ResolveResult.ok m, _) =>
        let r := getTranspiledModule st m qp.1
        (r.1, ResolveResult.ok r.2)
      | (st, ResolveResult.err e, _) => (st, ResolveResult.err e)

/-- `downloadDependency`: fetch the npm module (the fetcher models the
imported `fetchModule`, which populates the store) and register the
TranspiledModule for it under the query. -/
def downloadDependency (st : ManagerState) (fetcher : String → Module)
    (path query : String) : ManagerState × TranspiledModule :=
  let m := fetcher path
  let st := addModule st m
  getTranspiledModule st m query

/-- The fallback module used when no current TranspiledModule is supplied:
an arbitrary file from the root (`/package.json`). -/
def rootFallbackModule (st : ManagerState) : Module :=
  (alookup st.modules "/package.json").getD { path := "/package.json", code := "" }

/-- `resolveTranspiledModuleAsync`: resolve synchronously from the current
TranspiledModule (or an arbitrary root file); when that fails with an error
whose type is module-not-found and whose dependency flag is set, download
the dependency under the query split from the request; every other error
propagates. -/
def resolveTranspiledModuleAsync (st : ManagerState)
    (oracle : String → String → List String → Option String)
    (fetcher : String → Module) (path : String)
    (currentTModule : Option TranspiledModule)
    (ignoredExtensions : Option (List String)) :
    ManagerState × ResolveResult TranspiledModule :=
  let r0 := match currentTModule with
    | some t => (st, t)
    | none => getTranspiledModule st (rootFallbackModule st) ""
  let st := r0.1
  let tModule := r0.2
  match resolveTranspiledModule st oracle path tModule.module.path
      ignoredExtensions false with
  | (st, ResolveResult.ok tm) => (st, ResolveResult.ok tm)
  | (st, ResolveResult.err e) =>
    match e with
    | ResolveError.moduleNotFound p true _ =>
      let qp := splitQueryFromPath path
      let r := downloadDependency st fetcher p qp.1
      (r.1, ResolveResult.ok r.2)
    | _ => (st, ResolveResult.err e)

/-- The error dispatch of `resolveTranspiledModuleAsync`, in isolation: a
module-not-found error with the dependency flag set is retried through
`downloadDependency`, every other error propagates. -/
def retryOrPropagate (st : ManagerState) (fetcher : String → Module)
    (path : String) (e : ResolveError) :
    ManagerState × ResolveResult TranspiledModule :=
  match e with
  | ResolveError.moduleNotFound p true _ =>
    let r := downloadDependency st fetcher p (splitQueryFromPath path).1
    (r.1, ResolveResult.ok r.2)
  | _ => (st, ResolveResult.err e)

/-- `evaluateModule`: when a hard reload is pending and this is not the
first load, reload the host page and return immediately; otherwise evaluate
the HMR-dirty TranspiledModules first, then the requested one, record the
idle HMR status and run the post-evaluate pass (modelled as the identity on
the registry). -/
def evaluateModule (st : ManagerState) (m : Module) (force : Bool) :
    ManagerState × EvalOutcome :=
  if st.hardReload && !st.isFirstLoad then
    (st, EvalOutcome.pageReloaded)
  else
    let dirtyKeys := (allTMKeys st).filter (fun k =>
      match lookupTM st k with
      | some tm => tm.hmrDirty
      | none => false)
    let st := dirtyKeys.foldl (fun st k =>
      match lookupTM st k with
      | some tm => setTM st k (tm.evaluate).1
      | none => st) st
    let r := getTranspiledModule st m ""
    let st := r.1
    let tm := r.2
    let tm := if force && tm.compilation.isSome then
        { tm with compilation := none }
      else tm
    let er := tm.evaluate
    let st := setTM st (m.path, "") er.1
    let st := { st with hmrStatus := HMRStatus.idle }
    (st, EvalOutcome.evaluated er.2)

/-- Modelled from the spec: the message of a resolution error, as attached
to a node when transpilation fails on a request. -/
def resolveErrorMessage : ResolveError → String
  | ResolveError.moduleNotFound p _ f => "Cannot find module " ++ p ++ " from " ++ f
  | ResolveError.dependencyNotFound p f =>
    "Cannot find dependency " ++ p ++ " from " ++ f
  | ResolveError.typeError m => m
  | ResolveError.genericError m => m

/-- Modelled from the spec: resolving the runtime dependencies a transpile
pass declares, one request after the other through the synchronous
resolver — every resolution writes the resolver cache — stopping at the
first failing request and reporting its error. -/
def transpileResolveDeps
    (oracle : String → String → List String → Option String)
    (modulePath : String) :
    List String → ManagerState → ManagerState × Option ResolveError
  | [], st => (st, none)
  | r :: rs, st =>
    let res := resolveModuleSync st oracle r modulePath
      st.preset.ignoredExtensions
    match res.2.1 with
    | ResolveResult.ok _ => transpileResolveDeps oracle modulePath rs res.1
    | ResolveResult.err e => (res.1, some e)

/-- Modelled from the spec: transpiling a TranspiledModule resolves its
declared runtime dependencies through the Resolver (each resolution caches
its lookup in `cachedPaths`), then produces the transpiled source and
clears the error and missing-dependency state.  A dependency-not-found
failure marks the node as missing dependencies and stops the pass; any
other resolution failure is recorded on the node.  The discovery of the
request strings by the transpiler descriptors is represented by the
pretranspiled require list of the module. -/
def TranspiledModule.transpile (tm : TranspiledModule)
    (oracle : String → String → List String → Option String)
    (st : ManagerState) : ManagerState × TranspiledModule :=
  let r := transpileResolveDeps oracle tm.module.path
    (tm.module.requires.getD []) st
  match r.2 with
  | some (ResolveError.dependencyNotFound _ _) =>
    (r.1, { tm with hasMissingDependencies := true })
  | some e => (r.1, { tm with errors := tm.errors ++ [resolveErrorMessage e] })
  | none =>
    (r.1, { tm with source := some tm.module.code, errors := [],
                    hasMissingDependencies := false })

/-- The deletion predicate of `updateData`: a registered module is removed
when it is not under `/node_modules`, is not the browser-resolve empty
sentinel, is absent from the incoming module map and is not an emitted
loader child. -/
def updateDataRemovePred (modules : List (String × Module)) (m : Module) : Bool :=
  !strStartsWith m.path "/node_modules" &&
    m.path ≠ "/var/task/node_modules/browser-resolve/empty.js" &&
    (alookup modules m.path).isNone &&
    !m.parent

/-- One step of the `updateData` diff: a missing mirror classifies the
module as added, differing code as updated; both clear the resolver cache
(the file structure changed). -/
def updateDataDiffStep (acc : ManagerState × List Module × List Module)
    (kv : String × Module) : ManagerState × List Module × List Module :=
  match alookup acc.1.transpiledModules kv.1 with
  | none =>
    ({ acc.1 with cachedPaths := [] }, acc.2.1 ++ [kv.2], acc.2.2)
  | some mirror =>
    if mirror.module.code ≠ kv.2.code then
      ({ acc.1 with cachedPaths := [] }, acc.2.1, acc.2.2 ++ [kv.2])
    else acc

/-- The `updateData` diff over the incoming module map. -/
def updateDataDiff (st : ManagerState) (modules : List (String × Module)) :
    ManagerState × List Module × List Module :=
  modules.foldl updateDataDiffStep (st, [], [])

/-- The update propagation of `updateData`: each changed module is pushed
through `updateModule`, collecting the registry keys of its variants. -/
def updateDataApplyUpdates (st : ManagerState) (modulesToUpdate : List Module) :
    ManagerState × List (String × String) :=
  modulesToUpdate.foldl
    (fun (acc : ManagerState × List (String × String)) m =>
      let r := updateModule acc.1 m
      (r.1, acc.2 ++ r.2.map (fun q => (m.path, q.1))))
    (st, [])

/-- The hard-reload arming of `updateData`: when anything changed and a
sandbox configuration is present, the pending hard reload is set from its
`hardReloadOnChange` flag. -/
def updateDataSetHardReload (st : ManagerState)
    (modulesToUpdate : List Module) : ManagerState :=
  if modulesToUpdate ≠ [] then
    match st.configurations.sandbox with
    | some sc => { st with hardReload := sc.hardReloadOnChange }
    | none => st
  else st

/-- The errored-module collection of `updateData`: nodes with missing
dependencies get their transpilation reset, and every node with errors or
missing dependencies is collected for retranspilation. -/
def updateDataCollectErrored (st : ManagerState) :
    ManagerState × List (String × String) :=
  (allTMKeys st).foldl
    (fun (acc : ManagerState × List (String × String)) k =>
      match lookupTM acc.1 k with
      | none => acc
      | some tm =>
        let st := if tm.hasMissingDependencies then
            setTM acc.1 k tm.resetTranspilation
          else acc.1
        if tm.errors ≠ [] || tm.hasMissingDependencies then
          (st, acc.2 ++ [k])
        else (st, acc.2))
    (st, [])

/-- The test-file reset of `updateData`: test files are not retranspiled,
only their transpilation state is reset. -/
def updateDataResetTests (st : ManagerState) (testKeys : List (String × String)) :
    ManagerState :=
  testKeys.foldl
    (fun st k =>
      match lookupTM st k with
      | some tm => setTM st k tm.resetTranspilation
      | none => st)
    st

/-- One step of the retranspile pass: a collected node that needs
transpiling is transpiled and contributed to the result; the others
contribute the literal `false` of the source (modelled as `none`), which
the ineffective `filter(Boolean)` over promises keeps in the result. -/
def updateDataTranspileStep
    (oracle : String → String → List String → Option String)
    (acc : ManagerState × List (Option TranspiledModule))
    (k : String × String) : ManagerState × List (Option TranspiledModule) :=
  match lookupTM acc.1 k with
  | none => (acc.1, acc.2 ++ [none])
  | some tm =>
    if tm.shouldTranspile then
      let r := tm.transpile oracle acc.1
      (setTM r.1 k r.2, acc.2 ++ [some r.2])
    else (acc.1, acc.2 ++ [none])

/-- The retranspile pass of `updateData` over the collected non-test
nodes. -/
def updateDataTranspilePass
    (oracle : String → String → List String → Option String)
    (st : ManagerState) (keys : List (String × String)) :
    ManagerState × List (Option TranspiledModule) :=
  keys.foldl (updateDataTranspileStep oracle) (st, [])

/-- The retranspile-set predicate of `updateData`: a collected registry key
survives when its node exists and is not a test file. -/
def updateDataKeepPred (st : ManagerState) (k : String × String) : Bool :=
  match lookupTM st k with
  | some tm => !tm.isTestFile
  | none => false

/-- The test-set predicate of `updateData`: a collected registry key is a
test key when its node exists and is a test file. -/
def updateDataTestPred (st : ManagerState) (k : String × String) : Bool :=
  match lookupTM st k with
  | some tm => tm.isTestFile
  | none => false

/-- The phases of `updateData` before the retranspile pass: reset the job
and reload flags, diff the incoming module map against the registry
(clearing the resolver cache on any add or code change), remove the deleted
modules (each removal clears the cache), create TranspiledModules for the
added ones, propagate updates, set the pending hard reload from the sandbox
configuration when anything changed, reset and collect the errored and
missing-dependency nodes, and reset the transpilation state of the test
files; returns the state together with the collected non-test keys. -/
def updateDataPreTranspile (st0 : ManagerState)
    (modules : List (String × Module)) :
    ManagerState × List (String × String) :=
  let st := { st0 with transpileJobs := [], hardReload := false,
                       isFirstLoad := false, modules := modules }
  let diffed := updateDataDiff st modules
  let st := diffed.1
  let addedModules := diffed.2.1
  let updatedModules := diffed.2.2
  let toRemove := (getModules st).filter (updateDataRemovePred modules)
  let st := toRemove.foldl removeModule st
  let st := addedModules.foldl (fun st m => (addTranspiledModule st m "").1) st
  let modulesToUpdate := addedModules ++ updatedModules
  let updated := updateDataApplyUpdates st modulesToUpdate
  let st := updated.1
  let tModulesToUpdate := updated.2
  let st := updateDataSetHardReload st modulesToUpdate
  let errPass := updateDataCollectErrored st
  let st := errPass.1
  let allModulesToUpdate := (tModulesToUpdate ++ errPass.2).dedup
  let transpiledModulesToUpdate :=
    allModulesToUpdate.filter (updateDataKeepPred st)
  let testKeys := allModulesToUpdate.filter (updateDataTestPred st)
  let st := updateDataResetTests st testKeys
  (st, transpiledModulesToUpdate)

/-- `updateData`: run the diff, removal, addition, update, hard-reload,
error-collection and test-reset phases, then retranspile every collected
non-test node that needs it — each retranspilation resolving its declared
dependencies through the resolver and thereby repopulating the resolver
cache. -/
def updateData (oracle : String → String → List String → Option String)
    (st0 : ManagerState) (modules : List (String × Module)) :
    ManagerState × List (Option TranspiledModule) :=
  let pre := updateDataPreTranspile st0 modules
  updateDataTranspilePass oracle pre.1 pre.2

/-- `getDependencyQuery`: the canonical query of the manifest top-level
dependencies, normalized through an object keyed by name. -/
def getDependencyQuery (st : ManagerState) : String :=
  let normalized := st.manifest.dependencies.foldl
    (fun acc d => aset acc d.name d.version) []
  dependenciesToQuery normalized

/-- Modelled from the spec: the serialized form of one TranspiledModule,
restricted to the fields the restore path of the Manager consumes (module,
query and transpiled source; the edge hashes reconnect state internal to
the node). -/
structure SerializedTranspiledModule where
  module : Module
  query : String
  source : Option String := none
deriving Repr, DecidableEq

/-- The persisted cache record produced by `serialize` and consumed by
`load`, as laid out in the source. -/
structure SerializedData where
  transpiledModules : List (String × SerializedTranspiledModule)
  cachedPaths : List (String × List (String × String)) := []
  version : String
  timestamp : Nat := 0
  configurations : Configurations := {}
  entry : Option String := none
  meta : List (String × List String) := []
  dependenciesQuery : String
deriving Repr, DecidableEq

/-- The persist condition of `serialize`: a TranspiledModule is saved when
the manifest does not already provide its content, or it is a `.js` file
with no precomputed require list (it required transpilation), or it was
dynamically downloaded. -/
def persistCondition (st : ManagerState) (tm : TranspiledModule) : Bool :=
  (alookup st.manifest.contents tm.module.path).isNone ||
    (strEndsWith tm.module.path ".js" && tm.module.requires.isNone) ||
    tm.module.downloaded

/-- The serialized form of one TranspiledModule. -/
def serializeTM (tm : TranspiledModule) : SerializedTranspiledModule :=
  { module := tm.module, query := tm.query, source := tm.source }

/-- One write of the serialization pass: a TranspiledModule passing the
persist condition is stored under its id. -/
def serializeStep (st : ManagerState)
    (acc : List (String × SerializedTranspiledModule))
    (tm : TranspiledModule) : List (String × SerializedTranspiledModule) :=
  if persistCondition st tm then aset acc tm.getId (serializeTM tm) else acc

/-- `serialize`: persist every non-precomputed TranspiledModule under its
id, together with the resolver cache, the version constant, the
configurations, the entry path, the meta index derived from the known npm
paths, and the dependency query. -/
def serialize (st : ManagerState) (entryPath : Option String) : SerializedData :=
  let serializedTModules := st.transpiledModules.foldl
    (fun acc p =>
      p.2.tModules.foldl
        (fun acc q =>
          if persistCondition st q.2 then
            aset acc q.2.getId (serializeTM q.2)
          else acc)
        acc)
    []
  let meta := st.combinedMetas.foldl
    (fun acc p =>
      let dir := dirname (replaceFirst p "/node_modules" "")
      aset acc dir ((alookup acc dir).getD [] ++ [basename p]))
    []
  { transpiledModules := serializedTModules,
    cachedPaths := st.cachedPaths,
    version := SCRIPT_VERSION,
    configurations := st.configurations,
    entry := entryPath,
    meta := meta,
    dependenciesQuery := getDependencyQuery st }

/-- `load`: restore the persisted record only when its version equals the
compiler version and its dependency query equals the current one; otherwise
the state is left untouched (the browser-side key-value cache clears the
source performs have no Manager-state effect, and the surrounding
try-catch keeps any restore failure from propagating).  Restoration is
two-phase: first every saved TranspiledModule is instantiated, then each
node reloads its serialized internals. -/
def load (st : ManagerState) (data : Option SerializedData) : ManagerState :=
  match data with
  | none => st
  | some d =>
    if d.version = SCRIPT_VERSION && d.dependenciesQuery = getDependencyQuery st then
      let newCombined := (d.meta.map (fun dm =>
        dm.2.map (fun f => "/node_modules" ++ dm.1 ++ "/" ++ f))).flatten
      let st := { st with combinedMetas := newCombined,
                          cachedPaths := d.cachedPaths,
                          configurations := d.configurations }
      let st := d.transpiledModules.foldl
        (fun st p => (addTranspiledModule st p.2.module p.2.query).1) st
      d.transpiledModules.foldl
        (fun st p =>
          match lookupTM st (p.2.module.path, p.2.query) with
          | some tm => setTM st (p.2.module.path, p.2.query)
              { tm with source := p.2.source }
          | none => st)
        st
    else st

/-- The per-module diff test of `updateData`: an incoming module counts as
changed when it has no mirror in the registry (added) or its code differs
from the mirror (updated). -/
def moduleDiffers (st : ManagerState) (kv : String × Module) : Bool :=
  match alookup st.transpiledModules kv.1 with
  | none => true
  | some entry => entry.module.code ≠ kv.2.code

/-- The module-set diff detected by `updateData`: some incoming module is
new or has different code, or some registered module falls to the deletion
predicate. -/
def updateDataChanged (st : ManagerState) (modules : List (String × Module)) :
    Bool :=
  modules.any (moduleDiffers st) ||
  (getModules st).any (updateDataRemovePred modules)

/-- The failure trichotomy both resolver catch blocks implement, phrased as
the specification states it: the connected (rewritten) path lies under
`/node_modules` with a name the manifest knows, giving a dependency-flagged
module-not-found error; or it lies under `/node_modules` with an unknown
name, giving a dependency-not-found error; or it lies elsewhere, giving an
unflagged module-not-found error. -/
def errorClassificationAt (man : Manifest) (sp currentPath : String)
    (e : ResolveError) : Prop :=
  let c0 := connectedPathOf sp currentPath
  let stripped := replaceFirst c0 "/node_modules/" ""
  (containsSub c0 "/node_modules/" = true ∧
     manifestKnows man (getDependencyName stripped) = true ∧
     e = ResolveError.moduleNotFound stripped true currentPath) ∨
  (containsSub c0 "/node_modules/" = true ∧
     manifestKnows man (getDependencyName stripped) = false ∧
     e = ResolveError.dependencyNotFound stripped currentPath) ∨
  (containsSub c0 "/node_modules/" = false ∧
     e = ResolveError.moduleNotFound sp false currentPath)

/-- The failure trichotomy relative to a Manager state: classified at the
rewritten (shimmed) request the state computes. -/
def errorClassification (st : ManagerState) (path currentPath : String)
    (e : ResolveError) : Prop :=
  errorClassificationAt st.manifest (shimmedPathOf st path currentPath)
    currentPath e

/-- An identity preset with the default extension policy, used by the
concrete scenarios. -/
def idPreset : Preset :=
  { getAliasedPath := fun p => p, ignoredExtensions := ["js", "jsx", "json"] }

/-- The empty manifest. -/
def emptyManifest : Manifest :=
  { contents := [], dependencies := [], dependencyDependencies := [],
    dependencyAliases := [] }

/-- A Manager state built from a registry, a resolver cache and a manifest,
with the identity preset and defaults elsewhere. -/
def mkState (tms : List (String × TModuleEntry))
    (cached : List (String × List (String × String))) (man : Manifest) :
    ManagerState :=
  { transpiledModules := tms, cachedPaths := cached, manifest := man,
    preset := idPreset }

/-- A resolution oracle defined by a finite table of request and origin
pairs. -/
def tableOracle (table : List ((String × String) × String)) :
    String → String → List String → Option String :=
  fun request origin _ =>
    (table.find? (fun e => e.1.1 = request && e.1.2 = origin)).map (fun e => e.2)

/-- The always-failing resolution oracle. -/
def noneOracle : String → String → List String → Option String :=
  fun _ _ _ => none

/-- A state whose resolver cache holds a stale entry: the cached target is
absent from the module store. -/
def staleCacheState : ManagerState :=
  mkState [] [("/", [("./x", "/gone.js")])] emptyManifest

/-- A fetcher standing for the npm module download of `lodash`. -/
def lodashFetcher : String → Module :=
  fun _ => { path := "/node_modules/lodash/index.js", code := "fetched" }

/-- A TranspiledModule for the root index file, used as resolution origin. -/
def indexTM : TranspiledModule :=
  { module := { path := "/index.js", code := "" }, query := "" }

/-- A manifest listing `lodash` as a top-level dependency. -/
def lodashManifest : Manifest :=
  { emptyManifest with dependencies := [{ name := "lodash", version := "4.0.0" }] }

/-- A store module for resolver round trips. -/
def depModule : Module := { path := "/dep.js", code := "dep" }

/-- A state holding only `/dep.js`. -/
def depState : ManagerState :=
  mkState [("/dep.js", { module := depModule })] [] emptyManifest

/-- An oracle resolving `./dep` from `/index.js` to `/dep.js`. -/
def depOracle : String → String → List String → Option String :=
  tableOracle [(("./dep", "/index.js"), "/dep.js")]

/-- A module whose pretranspiled require list declares `./dep`. -/
def reqModule : Module :=
  { path := "/index.js", code := "old", requires := some ["./dep"] }

/-- The updated `/index.js` module: new code, same require list. -/
def reqModuleV2 : Module :=
  { path := "/index.js", code := "new", requires := some ["./dep"] }

/-- A state holding `/index.js` (with one transpiled variant) together with
the `/dep.js` module it requires. -/
def reqState : ManagerState :=
  mkState
    [("/index.js",
      { module := reqModule,
        tModules := [("", { module := reqModule, query := "" })] }),
     ("/dep.js", { module := depModule })]
    [] emptyManifest

/-- A state holding one registered module without transpiled variants. -/
def aEntryState : ManagerState :=
  mkState [("/a.js", { module := { path := "/a.js", code := "x" } })] []
    emptyManifest

/-- A TranspiledModule variant for `/b.js`. -/
def bTM : TranspiledModule :=
  { module := { path := "/b.js", code := "old" }, query := "" }

/-- A state holding `/b.js` together with its transpiled variant. -/
def bState : ManagerState :=
  mkState [("/b.js", { module := bTM.module, tModules := [("", bTM)] })] []
    emptyManifest

/-- The retranspiled variant of `/b.js` produced by updating its code. -/
def bTMNew : TranspiledModule :=
  { module := { path := "/b.js", code := "new" }, query := "",
    source := some "new", hmrDirty := true }

/-- A persisted record whose version does not match the compiler version. -/
def mismatchData : SerializedData :=
  { transpiledModules := [], version := "other-version", dependenciesQuery := "" }

/-- A state with a pending hard reload past the first load. -/
def hardReloadState : ManagerState :=
  { mkState [] [] emptyManifest with hardReload := true, isFirstLoad := false }

/-- A state with a pending hard reload on the first load. -/
def firstLoadState : ManagerState :=
  { mkState [] [] emptyManifest with hardReload := true, isFirstLoad := true }

theorem alookup_aset_self {β : Type} (l : List (String × β)) (k : String) (v : β) :
    alookup (aset l k v) k = some v := by
  induction l with
  | nil => simp [aset, alookup]
  | cons hd tl ih =>
    by_cases h : hd.1 = k
    · simp [aset, h, alookup]
    · simp [aset, h, alookup, ih]

theorem alookup_aset_ne {β : Type} (l : List (String × β)) (k k' : String) (v : β)
    (h : k' ≠ k) : alookup (aset l k v) k' = alookup l k' := by
  induction l with
  | nil => simp [aset, alookup, Ne.symm h]
  | cons hd tl ih =>
    by_cases hh : hd.1 = k
    · subst hh
      simp [aset, alookup, Ne.symm h, h]
    · by_cases hk : hd.1 = k'
      · simp [aset, hh, alookup, hk, h]
      · simp [aset, hh, alookup, hk, ih]

theorem alookup_aerase_self {β : Type} (l : List (String × β)) (k : String) :
    alookup (aerase l k) k = none := by
  induction l with
  | nil => simp [aerase, alookup]
  | cons hd tl ih =>
    by_cases h : hd.1 = k
    · simpa [aerase, h] using ih
    · simpa [aerase, h, alookup] using ih

theorem alookup_aerase_ne {β : Type} (l : List (String × β)) (k k' : String)
    (h : k' ≠ k) : alookup (aerase l k) k' = alookup l k' := by
  induction l with
  | nil => simp [aerase, alookup]
  | cons hd tl ih =>
    by_cases hh : hd.1 = k
    · subst hh
      simpa [aerase, alookup, Ne.symm h] using ih
    · by_cases hk : hd.1 = k'
      · simp [aerase, List.filter_cons, hh, alookup, hk, h]
      · simpa [aerase, List.filter_cons, hh, alookup, hk, h] using ih

theorem alookup_mem {β : Type} (l : List (String × β)) (k : String) (v : β)
    (h : alookup l k = some v) : (k, v) ∈ l := by
  induction l with
  | nil => simp [alookup] at h
  | cons hd tl ih =>
    cases hd with
    | mk a b =>
      by_cases hh : a = k
      · simp [alookup, hh] at h
        subst hh
        subst h
        exact List.mem_cons_self _ _
      · simp [alookup, hh] at h
        exact List.mem_cons_of_mem _ (ih h)

theorem ensureDir_transpiledModules (st : ManagerState) (d : String) :
    (ensureDir st d).transpiledModules = st.transpiledModules := by
  unfold ensureDir
  split <;> rfl

theorem ensureDir_manifest (st : ManagerState) (d : String) :
    (ensureDir st d).manifest = st.manifest := by
  unfold ensureDir
  split <;> rfl

theorem shimmedPathOf_ensureDir (st : ManagerState) (d p c : String) :
    shimmedPathOf (ensureDir st d) p c = shimmedPathOf st p c := by
  unfold ensureDir
  split <;> rfl

theorem shimmedPathOf_cacheWrite (st : ManagerState) (d r v p c : String) :
    shimmedPathOf (cacheWrite st d r v) p c = shimmedPathOf st p c := rfl

theorem cacheWrite_manifest (st : ManagerState) (d r v : String) :
    (cacheWrite st d r v).manifest = st.manifest := rfl

theorem cacheWrite_transpiledModules (st : ManagerState) (d r v : String) :
    (cacheWrite st d r v).transpiledModules = st.transpiledModules := rfl

theorem cacheEraseGuarded_manifest (st : ManagerState) (d r : String) :
    (cacheEraseGuarded st d r).manifest = st.manifest := by
  unfold cacheEraseGuarded
  split
  · rfl
  · split
    · rfl
    · split <;> rfl

theorem cachedLookup_ensureDir (st : ManagerState) (d d' r : String) :
    cachedLookup (ensureDir st d) d' r = cachedLookup st d' r := by
  unfold ensureDir
  cases hb : alookup st.cachedPaths d with
  | some bucket => simp
  | none =>
    by_cases h : d' = d
    · subst h
      simp [cachedLookup, alookup_aset_self, hb, alookup]
    · simp [cachedLookup, alookup_aset_ne _ _ _ _ h]

theorem cachedLookup_cacheWrite_self (st : ManagerState) (d r v : String) :
    cachedLookup (cacheWrite st d r v) d r = some v := by
  unfold cacheWrite cachedLookup
  simp [alookup_aset_self]

theorem cacheEraseGuarded_lookup (st : ManagerState) (d r : String)
    (h : cachedLookup st d r ≠ some "") :
    cachedLookup (cacheEraseGuarded st d r) d r = none := by
  unfold cacheEraseGuarded
  cases hb : alookup st.cachedPaths d with
  | none => simp [cachedLookup, hb]
  | some bucket =>
    cases hv : alookup bucket r with
    | none => simp [cachedLookup, hb, hv]
    | some v =>
      have hv' : v ≠ "" := by
        intro h0
        apply h
        simp [cachedLookup, hb, hv, h0]
      simp [cachedLookup, hb, hv, hv', alookup_aset_self, alookup_aerase_self]

theorem classifyResolveError_spec (man : Manifest) (sp c : String) :
    errorClassificationAt man sp c (classifyResolveError man sp c) := by
  unfold classifyResolveError errorClassificationAt
  by_cases h1 : containsSub (connectedPathOf sp c) "/node_modules/" = true
  · by_cases h2 : manifestKnows man
        (getDependencyName (replaceFirst (connectedPathOf sp c) "/node_modules/" "")) = true
    · left
      simp [h1, h2]
    · right
      left
      simp only [Bool.not_eq_true] at h2
      simp [h1, h2]
  · right
    right
    simp only [Bool.not_eq_true] at h1
    simp [h1]

theorem cachedLookup_resolveCatch (st : ManagerState) (d r sp c : String)
    (h : cachedLookup st d r ≠ some "") :
    cachedLookup (resolveCatch st d r sp c).1 d r = none := by
  unfold resolveCatch
  exact cacheEraseGuarded_lookup st d r h

theorem resolveNoCacheSync_err (st : ManagerState)
    (oracle : String → String → List String → Option String)
    (path currentPath : String) (exts : List String) (d : String)
    (e : ResolveError)
    (hor : oracle (shimmedPathOf st path currentPath) currentPath exts ≠ some "")
    (hcc : cachedLookup st d path ≠ some "")
    (h : (resolveNoCacheSync st oracle path currentPath exts d).2.1 =
         ResolveResult.err e) :
    errorClassificationAt st.manifest (shimmedPathOf st path currentPath)
      currentPath e ∧
    cachedLookup (resolveNoCacheSync st oracle path currentPath exts d).1
      d path = none := by
  rcases hr : resolveNoCacheSync st oracle path currentPath exts d
    with ⟨st', res, fl⟩
  rw [hr] at h
  dsimp only at h ⊢
  unfold resolveNoCacheSync at hr
  dsimp only at hr
  split at hr
  · obtain ⟨rfl, rfl, rfl⟩ := hr
    simp at h
  · split at hr
    · obtain ⟨rfl, rfl, rfl⟩ := hr
      injection h with h2
      refine ⟨?_, cachedLookup_resolveCatch st d path _ currentPath hcc⟩
      rw [← h2]
      exact classifyResolveError_spec st.manifest _ currentPath
    · rename_i rp ho
      split at hr
      · obtain ⟨rfl, rfl, rfl⟩ := hr
        simp at h
      · split at hr
        · obtain ⟨rfl, rfl, rfl⟩ := hr
          simp at h
        · obtain ⟨rfl, rfl, rfl⟩ := hr
          injection h with h2
          have hrp : rp ≠ "" := by
            intro h0
            apply hor
            rw [ho, h0]
          have hw : cachedLookup (cacheWrite st d path rp) d path ≠ some "" := by
            rw [cachedLookup_cacheWrite_self]
            intro h0
            exact hrp (by injection h0)
          refine ⟨?_, cachedLookup_resolveCatch _ d path _ currentPath hw⟩
          rw [← h2]
          exact classifyResolveError_spec st.manifest _ currentPath

theorem resolveNoCacheAsync_err (st : ManagerState)
    (oracle : String → String → List String → Option String)
    (path currentPath : String) (exts : List String) (d : String)
    (e : ResolveError)
    (_hor : oracle (shimmedPathOf st path currentPath) currentPath exts ≠ some "")
    (hcc : cachedLookup st d path ≠ some "")
    (h : (resolveNoCacheAsync st oracle path currentPath exts d).2 =
         ResolveResult.err e) :
    errorClassificationAt st.manifest (shimmedPathOf st path currentPath)
      currentPath e ∧
    cachedLookup (resolveNoCacheAsync st oracle path currentPath exts d).1
      d path = none := by
  rcases hr : resolveNoCacheAsync st oracle path currentPath exts d
    with ⟨st', res⟩
  rw [hr] at h
  dsimp only at h ⊢
  unfold resolveNoCacheAsync at hr
  dsimp only at hr
  split at hr
  · obtain ⟨rfl, rfl⟩ := hr
    simp at h
  · split at hr
    · obtain ⟨rfl, rfl⟩ := hr
      injection h with h2
      refine ⟨?_, cachedLookup_resolveCatch st d path _ currentPath hcc⟩
      rw [← h2]
      exact classifyResolveError_spec st.manifest _ currentPath
    · split at hr
      · obtain ⟨rfl, rfl⟩ := hr
        simp at h
      · split at hr
        · obtain ⟨rfl, rfl⟩ := hr
          simp at h
        · split at hr
          · obtain ⟨rfl, rfl⟩ := hr
            simp at h
          · obtain ⟨rfl, rfl⟩ := hr
            simp at h

/-- C1 (amended): whenever `resolveModule` fails to resolve, and whenever
its async sibling fails while every truthy cached path still references a
module present in the store, exactly one of the three errors of the failure
trichotomy is raised — `ModuleNotFoundError(isDependency=true)` when the
rewritten path lies under `/node_modules` with a name the manifest lists
among dependencies or dependencyDependencies, `DependencyNotFoundError`
when it lies under `/node_modules` with an unknown name, and
`ModuleNotFoundError(isDependency=false)` otherwise — and the cachedPaths
entry for the pair of dirname(fromPath) and request is absent afterwards.
A stale truthy cache entry instead makes the async variant reject with a
TypeError and retains the entry (see the counterexample); empty-string
cache values and resolver results, which JS truthiness would keep, are
assumed absent. -/
theorem c1_resolution_failure_classification (st : ManagerState)
    (oracle : String → String → List String → Option String)
    (path currentPath : String) (exts : List String) (e eA : ResolveError)
    (hcc : cachedLookup st (dirname currentPath) path ≠ some "")
    (hor : oracle (shimmedPathOf st path currentPath) currentPath exts ≠ some "")
    (hvalid : (cachedLookup st (dirname currentPath) path).all
        (fun v => v = "" || (alookup st.transpiledModules v).isSome) = true) :
    ((resolveModuleSync st oracle path currentPath exts).2.1 =
        ResolveResult.err e →
      errorClassification st path currentPath e ∧
      cachedLookup (resolveModuleSync st oracle path currentPath exts).1
        (dirname currentPath) path = none) ∧
    ((resolveModuleAsync st oracle path currentPath exts).2 =
        ResolveResult.err eA →
      errorClassification st path currentPath eA ∧
      cachedLookup (resolveModuleAsync st oracle path currentPath exts).1
        (dirname currentPath) path = none) := by
  constructor
  · intro h
    rcases hr : resolveModuleSync st oracle path currentPath exts
      with ⟨st', res, fl⟩
    rw [hr] at h
    dsimp only at h ⊢
    unfold resolveModuleSync at hr
    dsimp only at hr
    split at hr
    · split at hr
      · obtain ⟨rfl, rfl, rfl⟩ := hr
        simp at h
      · obtain ⟨rfl, rfl, rfl⟩ := hr
        simp at h
    · have hor2 : oracle (shimmedPathOf (ensureDir st (dirname currentPath))
          path currentPath) currentPath exts ≠ some "" := by
        rw [shimmedPathOf_ensureDir]
        exact hor
      have hcc2 : cachedLookup (ensureDir st (dirname currentPath))
          (dirname currentPath) path ≠ some "" := by
        rw [cachedLookup_ensureDir]
        exact hcc
      have hmain := resolveNoCacheSync_err (ensureDir st (dirname currentPath))
        oracle path currentPath exts (dirname currentPath) e hor2 hcc2
        (by rw [hr]; exact h)
      rw [hr] at hmain
      rw [ensureDir_manifest, shimmedPathOf_ensureDir] at hmain
      exact hmain
  · intro h
    rcases hr : resolveModuleAsync st oracle path currentPath exts
      with ⟨st', res⟩
    rw [hr] at h
    dsimp only at h ⊢
    unfold resolveModuleAsync at hr
    dsimp only at hr
    split at hr
    · rename_i hjt
      split at hr
      · obtain ⟨rfl, rfl⟩ := hr
        simp at h
      · rename_i hmiss
        obtain ⟨rfl, rfl⟩ := hr
        exfalso
        rw [cachedLookup_ensureDir] at hjt hmiss
        cases hc : cachedLookup st (dirname currentPath) path with
        | none =>
          rw [hc] at hjt
          simp [jsTruthy] at hjt
        | some v =>
          rw [hc] at hjt hmiss
          rw [hc] at hvalid
          have hv : v ≠ "" := by
            simpa [jsTruthy] using hjt
          simp only [Option.all_some, hv, Bool.false_or] at hvalid
          rw [ensureDir_transpiledModules] at hmiss
          simp only [Option.getD_some] at hmiss
          rw [hmiss] at hvalid
          simp at hvalid
    · have hor2 : oracle (shimmedPathOf (ensureDir st (dirname currentPath))
          path currentPath) currentPath exts ≠ some "" := by
        rw [shimmedPathOf_ensureDir]
        exact hor
      have hcc2 : cachedLookup (ensureDir st (dirname currentPath))
          (dirname currentPath) path ≠ some "" := by
        rw [cachedLookup_ensureDir]
        exact hcc
      have hmain := resolveNoCacheAsync_err (ensureDir st (dirname currentPath))
        oracle path currentPath exts (dirname currentPath) eA hor2 hcc2
        (by rw [hr]; exact h)
      rw [hr] at hmain
      rw [ensureDir_manifest, shimmedPathOf_ensureDir] at hmain
      exact hmain

/-- C1 counterexample: with a stale cache entry (the cached target
`/gone.js` is absent from the module store) the async resolver fails with a
TypeError — not one of the three classified errors — and the cachedPaths
entry for (dirname `/index.js`, `./x`) is retained, refuting the claim as
stated for the async sibling. -/
theorem c1_stale_cache_typeerror :
    (resolveModuleAsync staleCacheState noneOracle "./x" "/index.js"
        ["js"]).2 =
      ResolveResult.err
        (ResolveError.typeError "Cannot read property module of undefined") ∧
    cachedLookup (resolveModuleAsync staleCacheState noneOracle "./x"
        "/index.js" ["js"]).1 "/" "./x" = some "/gone.js" :=
  ⟨by decide, by decide⟩

theorem c1_resolution_failure_classification_witness :
    errorClassification (mkState [] [] emptyManifest) "unknownpkg" "/index.js"
      (ResolveError.dependencyNotFound "unknownpkg" "/index.js") ∧
    cachedLookup (resolveModuleSync (mkState [] [] emptyManifest) noneOracle
        "unknownpkg" "/index.js" ["js"]).1 (dirname "/index.js") "unknownpkg" =
      none :=
  (c1_resolution_failure_classification (mkState [] [] emptyManifest)
    noneOracle "unknownpkg" "/index.js" ["js"]
    (ResolveError.dependencyNotFound "unknownpkg" "/index.js")
    (ResolveError.dependencyNotFound "unknownpkg" "/index.js")
    (by decide) (by decide) (by decide)).1 (by decide)

theorem resolveNoCache_agree (st : ManagerState)
    (oracle : String → String → List String → Option String)
    (path currentPath : String) (exts : List String) (d : String)
    (h2 : (oracle (shimmedPathOf st path currentPath) currentPath exts).all
        (fun fp => fp = "//empty.js" ||
          (alookup st.transpiledModules fp).isSome) = true) :
    resolveNoCacheAsync st oracle path currentPath exts d =
      ((resolveNoCacheSync st oracle path currentPath exts d).1,
       (resolveNoCacheSync st oracle path currentPath exts d).2.1) := by
  unfold resolveNoCacheAsync resolveNoCacheSync
  dsimp only
  by_cases hn : NODE_LIBS.contains (shimmedPathOf st path currentPath) = true
  · have hm : shimmedPathOf st path currentPath ∈ NODE_LIBS := by
      simpa using hn
    simp [hm]
  · rw [if_neg hn, if_neg hn]
    cases ho : oracle (shimmedPathOf st path currentPath) currentPath exts with
    | none => rfl
    | some rp =>
      dsimp only
      by_cases hemp : rp = "//empty.js"
      · simp [hemp]
      · rw [if_neg hemp, if_neg hemp]
        rw [ho] at h2
        simp only [Option.all_some, hemp, decide_eq_true_eq, false_or,
          Bool.false_or] at h2
        obtain ⟨entry, hl⟩ := Option.isSome_iff_exists.mp (by simpa using h2)
        have hl2 : alookup (cacheWrite st d path rp).transpiledModules rp =
            some entry := by
          rw [cacheWrite_transpiledModules]
          exact hl
        rw [hl2]

/-- C2 (amended): the synchronous `resolveModule` and the asynchronous
`resolveModuleAsync` agree on outputs for identical inputs and identical
manager state — same state, same resolved module on success and same error
kind (with the same dependency classification) on failure — provided every
truthy cachedPaths entry for the lookup directory names a module still in
the store and is not the `//empty.js` sentinel, and every path the external
resolver finds is either the sentinel or present in the store.  Outside
those provisos the variants diverge (see the counterexample: a stale cache
entry makes the sync variant re-resolve while the async one rejects with a
TypeError). -/
theorem c2_sync_async_agree (st : ManagerState)
    (oracle : String → String → List String → Option String)
    (path currentPath : String) (exts : List String)
    (h1 : (cachedLookup st (dirname currentPath) path).all
        (fun v => v = "" || (v ≠ "//empty.js" &&
          (alookup st.transpiledModules v).isSome)) = true)
    (h2 : (oracle (shimmedPathOf st path currentPath) currentPath exts).all
        (fun fp => fp = "//empty.js" ||
          (alookup st.transpiledModules fp).isSome) = true) :
    resolveModuleAsync st oracle path currentPath exts =
      ((resolveModuleSync st oracle path currentPath exts).1,
       (resolveModuleSync st oracle path currentPath exts).2.1) := by
  unfold resolveModuleAsync resolveModuleSync
  dsimp only
  have h2e : (oracle (shimmedPathOf (ensureDir st (dirname currentPath)) path
      currentPath) currentPath exts).all
      (fun fp => fp = "//empty.js" ||
        (alookup (ensureDir st (dirname currentPath)).transpiledModules
          fp).isSome) = true := by
    rw [shimmedPathOf_ensureDir, ensureDir_transpiledModules]
    exact h2
  cases hc : cachedLookup (ensureDir st (dirname currentPath))
      (dirname currentPath) path with
  | none =>
    have hne : ¬ (jsTruthy (none : Option String) = true) := by decide
    rw [if_neg hne, if_neg hne]
    dsimp only
    exact resolveNoCache_agree _ oracle path currentPath exts _ h2e
  | some v =>
    rw [cachedLookup_ensureDir] at hc
    rw [hc] at h1
    by_cases hv : v = ""
    · subst hv
      have hne : ¬ (jsTruthy (some "") = true) := by decide
      rw [if_neg hne, if_neg hne]
      dsimp only
      exact resolveNoCache_agree _ oracle path currentPath exts _ h2e
    · have hjt : jsTruthy (some v) = true := by
        simp [jsTruthy, hv]
      rw [if_pos hjt, if_pos hjt]
      simp only [Option.all_some] at h1
      have hd1 : decide (v = "") = false := by
        simp [hv]
      rw [hd1, Bool.false_or, Bool.and_eq_true] at h1
      obtain ⟨hne2b, hsome⟩ := h1
      have hne2 : v ≠ "//empty.js" := by
        simpa using hne2b
      obtain ⟨entry, hl⟩ := Option.isSome_iff_exists.mp hsome
      have hl2 : alookup (ensureDir st (dirname currentPath)).transpiledModules
          ((some v).getD "") = some entry := by
        rw [ensureDir_transpiledModules]
        simpa using hl
      rw [hl2]
      dsimp only
      rw [if_neg (by simpa using hne2)]

/-- C2 counterexample: with a stale cache entry the two variants disagree —
the synchronous resolver revalidates the entry, re-resolves and raises
`ModuleNotFoundError(isDependency=false)`, while the asynchronous one
trusts the entry and rejects with a TypeError. -/
theorem c2_stale_cache_divergence :
    (resolveModuleAsync staleCacheState noneOracle "./x" "/index.js"
        ["js"]).2 =
      ResolveResult.err
        (ResolveError.typeError "Cannot read property module of undefined") ∧
    (resolveModuleSync staleCacheState noneOracle "./x" "/index.js"
        ["js"]).2.1 =
      ResolveResult.err
        (ResolveError.moduleNotFound "./x" false "/index.js") :=
  ⟨by decide, by decide⟩

theorem c2_sync_async_agree_witness :
    resolveModuleAsync depState depOracle "./dep" "/index.js" ["js"] =
      ((resolveModuleSync depState depOracle "./dep" "/index.js" ["js"]).1,
       (resolveModuleSync depState depOracle "./dep" "/index.js" ["js"]).2.1) :=
  c2_sync_async_agree depState depOracle "./dep" "/index.js" ["js"]
    (by decide) (by decide)

theorem ensureDir_present (st : ManagerState) (d : String)
    (h : (alookup st.cachedPaths d).isSome = true) : ensureDir st d = st := by
  unfold ensureDir
  split
  · rfl
  · rename_i hb
    rw [hb] at h
    simp at h

theorem cacheWrite_bucket_present (st : ManagerState) (d r v : String) :
    (alookup (cacheWrite st d r v).cachedPaths d).isSome = true := by
  unfold cacheWrite
  simp [alookup_aset_self]

/-- C7 (amended): `resolveModule` called twice with no intervening update
returns the same resolved Module both times; the second call is answered
from the cachedPaths entry written by the first call — without re-running
the resolution algorithm — whenever the first call went through the
external resolver (not the Node-lib shim table) and cached a non-sentinel
path.  For Node-lib shims and the `//empty.js` sentinel the written entry
fails the store revalidation, so resolution re-runs (deterministically
returning the same shim Module; see the counterexample). -/
theorem c7_second_resolve_from_cache (st st1 : ManagerState)
    (oracle : String → String → List String → Option String)
    (path currentPath : String) (exts : List String) (m : Module)
    (h1 : resolveModuleSync st oracle path currentPath exts =
          (st1, ResolveResult.ok m, false))
    (hshim : NODE_LIBS.contains (shimmedPathOf st path currentPath) = false)
    (hval : (cachedLookup st1 (dirname currentPath) path).all
        (fun v => v ≠ "" && v ≠ "//empty.js") = true) :
    resolveModuleSync st1 oracle path currentPath exts =
      (st1, ResolveResult.ok m, true) := by
  unfold resolveModuleSync at h1
  dsimp only at h1
  split at h1
  · split at h1 <;> simp at h1
  · unfold resolveNoCacheSync at h1
    dsimp only at h1
    split at h1
    · rename_i hcon
      rw [shimmedPathOf_ensureDir] at hcon
      rw [hshim] at hcon
      exact absurd hcon (by decide)
    · split at h1
      · simp at h1
      · rename_i rp ho
        split at h1
        · rename_i hemp
          subst hemp
          obtain ⟨rfl, rfl, rfl⟩ := h1
          exfalso
          rw [cachedLookup_cacheWrite_self] at hval
          simp at hval
        · split at h1
          · rename_i entry hl
            obtain ⟨rfl, rfl, rfl⟩ := h1
            unfold resolveModuleSync
            dsimp only
            rw [ensureDir_present _ _ (cacheWrite_bucket_present _ _ _ _)]
            rw [cachedLookup_cacheWrite_self] at hval ⊢
            simp only [Option.all_some, Bool.and_eq_true] at hval
            obtain ⟨hrp1, hrp2⟩ := hval
            have hjt : jsTruthy (some rp) = true := by
              simpa [jsTruthy] using hrp1
            rw [if_pos hjt]
            simp only [Option.getD_some]
            rw [hl]
            dsimp only
            rw [if_neg (by simpa using hrp2)]
          · simp at h1

/-- C7 counterexample: for the Node-lib request `fs` the first call writes
the cache entry `fs`, yet the second call is not answered from the cache
(the cached-path branch is not taken, witnessed by the `false` cache-hit
flag) because the shim path is absent from the module store; resolution
re-runs and deterministically returns the same shim Module. -/
theorem c7_node_lib_not_from_cache :
    cachedLookup (resolveModuleSync depState depOracle "fs" "/index.js"
        ["js"]).1 "/" "fs" = some "fs" ∧
    (resolveModuleSync (resolveModuleSync depState depOracle "fs" "/index.js"
        ["js"]).1 depOracle "fs" "/index.js" ["js"]).2 =
      (ResolveResult.ok (getShimmedModuleFromPath "/index.js" "fs"), false) ∧
    (resolveModuleSync depState depOracle "fs" "/index.js" ["js"]).2 =
      (ResolveResult.ok (getShimmedModuleFromPath "/index.js" "fs"), false) :=
  ⟨by decide, by decide, by decide⟩

theorem c7_second_resolve_from_cache_witness :
    resolveModuleSync (resolveModuleSync depState depOracle "./dep"
        "/index.js" ["js"]).1 depOracle "./dep" "/index.js" ["js"] =
      ((resolveModuleSync depState depOracle "./dep" "/index.js" ["js"]).1,
       ResolveResult.ok depModule, true) :=
  c7_second_resolve_from_cache depState
    (resolveModuleSync depState depOracle "./dep" "/index.js" ["js"]).1
    depOracle "./dep" "/index.js" ["js"] depModule (by rfl) (by decide)
    (by decide)

theorem foldl_fst_preserves {α β γ : Type} (proj : ManagerState → γ)
    (f : (ManagerState × β) → α → (ManagerState × β))
    (hf : ∀ acc a, proj ((f acc a).1) = proj acc.1) :
    ∀ (l : List α) (acc : ManagerState × β),
      proj ((l.foldl f acc).1) = proj acc.1 := by
  intro l
  induction l with
  | nil => intro acc; rfl
  | cons a tl ih =>
    intro acc
    rw [List.foldl_cons, ih, hf]

theorem foldl_state_preserves {α γ : Type} (proj : ManagerState → γ)
    (f : ManagerState → α → ManagerState)
    (hf : ∀ st a, proj (f st a) = proj st) :
    ∀ (l : List α) (st : ManagerState), proj (l.foldl f st) = proj st := by
  intro l
  induction l with
  | nil => intro st; rfl
  | cons a tl ih =>
    intro st
    rw [List.foldl_cons, ih, hf]

theorem addModule_cachedPaths (st : ManagerState) (m : Module) :
    (addModule st m).cachedPaths = st.cachedPaths := by
  unfold addModule
  split <;> rfl

theorem addTranspiledModule_cachedPaths (st : ManagerState) (m : Module)
    (q : String) : ((addTranspiledModule st m q).1).cachedPaths =
      st.cachedPaths := by
  unfold addTranspiledModule
  dsimp only
  exact addModule_cachedPaths st m

theorem updateModule_cachedPaths (st : ManagerState) (m : Module) :
    (updateModule st m).1.cachedPaths = st.cachedPaths := by
  unfold updateModule
  split <;> rfl

theorem setTM_cachedPaths (st : ManagerState) (k : String × String)
    (tm : TranspiledModule) : (setTM st k tm).cachedPaths = st.cachedPaths := by
  unfold setTM
  split <;> rfl

theorem removeModule_cachedPaths (st : ManagerState) (m : Module) :
    (removeModule st m).cachedPaths = [] := rfl

theorem foldl_removeModule_cachedPaths :
    ∀ (l : List Module) (st : ManagerState),
      (l.foldl removeModule st).cachedPaths =
        if l = [] then st.cachedPaths else [] := by
  intro l
  induction l with
  | nil => intro st; simp
  | cons m tl ih =>
    intro st
    rw [List.foldl_cons, ih (removeModule st m)]
    cases tl with
    | nil => simp [removeModule_cachedPaths]
    | cons x xs => simp

theorem updateDataApplyUpdates_cachedPaths (st : ManagerState)
    (l : List Module) :
    (updateDataApplyUpdates st l).1.cachedPaths = st.cachedPaths := by
  unfold updateDataApplyUpdates
  refine foldl_fst_preserves ManagerState.cachedPaths _ ?_ l (st, [])
  intro acc a
  dsimp only
  exact updateModule_cachedPaths acc.1 a

theorem updateDataSetHardReload_cachedPaths (st : ManagerState)
    (l : List Module) :
    (updateDataSetHardReload st l).cachedPaths = st.cachedPaths := by
  unfold updateDataSetHardReload
  split
  · split <;> rfl
  · rfl

theorem updateDataCollectErrored_cachedPaths (st : ManagerState) :
    (updateDataCollectErrored st).1.cachedPaths = st.cachedPaths := by
  unfold updateDataCollectErrored
  refine foldl_fst_preserves ManagerState.cachedPaths _ ?_ (allTMKeys st) (st, [])
  intro acc a
  dsimp only
  split
  · rfl
  · split <;> · split <;> simp [setTM_cachedPaths]

theorem updateDataResetTests_cachedPaths (st : ManagerState)
    (keys : List (String × String)) :
    (updateDataResetTests st keys).cachedPaths = st.cachedPaths := by
  unfold updateDataResetTests
  refine foldl_state_preserves ManagerState.cachedPaths _ ?_ keys st
  intro s a
  split
  · exact setTM_cachedPaths _ _ _
  · rfl

theorem foldl_addNew_cachedPaths (l : List Module) (st : ManagerState) :
    (l.foldl (fun st m => (addTranspiledModule st m "").1) st).cachedPaths =
      st.cachedPaths :=
  foldl_state_preserves ManagerState.cachedPaths _
    (fun s m => addTranspiledModule_cachedPaths s m "") l st

theorem updateDataDiffStep_transpiledModules
    (acc : ManagerState × List Module × List Module) (kv : String × Module) :
    ((updateDataDiffStep acc kv).1).transpiledModules =
      acc.1.transpiledModules := by
  unfold updateDataDiffStep
  split
  · rfl
  · split <;> rfl

theorem updateDataDiff_transpiledModules (st : ManagerState)
    (modules : List (String × Module)) :
    ((updateDataDiff st modules).1).transpiledModules =
      st.transpiledModules := by
  unfold updateDataDiff
  exact foldl_fst_preserves ManagerState.transpiledModules _
    updateDataDiffStep_transpiledModules modules (st, [], [])

theorem moduleDiffers_of_none (st : ManagerState) (kv : String × Module)
    (h : alookup st.transpiledModules kv.1 = none) :
    moduleDiffers st kv = true := by
  unfold moduleDiffers
  rw [h]

theorem moduleDiffers_of_some (st : ManagerState) (kv : String × Module)
    (entry : TModuleEntry) (h : alookup st.transpiledModules kv.1 = some entry) :
    moduleDiffers st kv = decide (entry.module.code ≠ kv.2.code) := by
  unfold moduleDiffers
  rw [h]

theorem moduleDiffers_cachedPaths_irrelevant (st : ManagerState)
    (c : List (String × List (String × String))) (kv : String × Module) :
    moduleDiffers { st with cachedPaths := c } kv = moduleDiffers st kv := rfl

theorem updateDataDiff_fold_cachedPaths :
    ∀ (l : List (String × Module)) (st : ManagerState)
      (adds upds : List Module),
      ((l.foldl updateDataDiffStep (st, adds, upds)).1).cachedPaths =
        (if l.any (moduleDiffers st) = true then [] else st.cachedPaths) := by
  intro l
  induction l with
  | nil => intro st adds upds; simp
  | cons kv tl ih =>
    intro st adds upds
    rw [List.foldl_cons]
    cases hm : alookup st.transpiledModules kv.1 with
    | none =>
      have hstep : updateDataDiffStep (st, adds, upds) kv =
          ({ st with cachedPaths := [] }, adds ++ [kv.2], upds) := by
        unfold updateDataDiffStep
        simp only [hm]
      rw [hstep, ih]
      have hd := moduleDiffers_cachedPaths_irrelevant st []
      simp [List.any_cons, moduleDiffers_of_none st kv hm,
        moduleDiffers_cachedPaths_irrelevant]
    | some entry =>
      by_cases hc : entry.module.code = kv.2.code
      · have hstep : updateDataDiffStep (st, adds, upds) kv =
            (st, adds, upds) := by
          unfold updateDataDiffStep
          simp only [hm]
          rw [if_neg (by simpa using hc)]
        have hfalse : moduleDiffers st kv = false := by
          rw [moduleDiffers_of_some st kv entry hm]
          simp [hc]
        rw [hstep, ih, List.any_cons, hfalse, Bool.false_or]
      · have hstep : updateDataDiffStep (st, adds, upds) kv =
            ({ st with cachedPaths := [] }, adds, upds ++ [kv.2]) := by
          unfold updateDataDiffStep
          simp only [hm]
          rw [if_pos hc]
        rw [hstep, ih]
        simp [List.any_cons, moduleDiffers_of_some st kv entry hm, hc,
          moduleDiffers_cachedPaths_irrelevant]

theorem updateDataDiff_cachedPaths (st : ManagerState)
    (modules : List (String × Module)) :
    ((updateDataDiff st modules).1).cachedPaths =
      (if modules.any (moduleDiffers st) = true then [] else st.cachedPaths) :=
  updateDataDiff_fold_cachedPaths modules st [] []

theorem filter_nil_iff_any_false {α : Type} (p : α → Bool) :
    ∀ l : List α, (l.filter p = [] ↔ l.any p = false) := by
  intro l
  induction l with
  | nil => simp
  | cons a tl ih =>
    cases hp : p a <;> simp [List.filter_cons, List.any_cons, hp, ih]

theorem getModules_updateDataDiff (st : ManagerState)
    (modules : List (String × Module)) :
    getModules ((updateDataDiff st modules).1) = getModules st := by
  unfold getModules
  rw [updateDataDiff_transpiledModules]

theorem getModules_resetFlags (st : ManagerState)
    (ms : List (String × Module)) :
    getModules { st with transpileJobs := [], hardReload := false,
                         isFirstLoad := false, modules := ms } =
      getModules st := rfl

theorem moduleDiffers_resetFlags (st : ManagerState)
    (ms : List (String × Module)) :
    moduleDiffers { st with transpileJobs := [], hardReload := false,
                            isFirstLoad := false, modules := ms } =
      moduleDiffers st := rfl

theorem cachedPaths_resetFlags (st : ManagerState)
    (ms : List (String × Module)) :
    ({ st with transpileJobs := [], hardReload := false, isFirstLoad := false,
               modules := ms } : ManagerState).cachedPaths =
      st.cachedPaths := rfl

/-- C6 (amended): `updateData` clears the resolver cache wholesale exactly
on a module-set change, before retranspiling — the state entering the
retranspile pass carries the empty map when some module was added, had
different code or was deleted, and the untouched pre-existing map
otherwise; the result of `updateData` is that pass run from this state,
and its dependency resolutions repopulate the map (see the
counterexample), so after `updateData` returns, emptiness of `cachedPaths`
is not equivalent to a change. -/
theorem c6_cache_cleared_before_retranspile
    (oracle : String → String → List String → Option String)
    (st0 : ManagerState) (modules : List (String × Module)) :
    ((updateDataPreTranspile st0 modules).1).cachedPaths =
      (if updateDataChanged st0 modules = true then []
       else st0.cachedPaths) ∧
    updateData oracle st0 modules =
      updateDataTranspilePass oracle (updateDataPreTranspile st0 modules).1
        (updateDataPreTranspile st0 modules).2 := by
  refine ⟨?_, rfl⟩
  unfold updateDataPreTranspile
  dsimp only
  rw [updateDataResetTests_cachedPaths,
    updateDataCollectErrored_cachedPaths, updateDataSetHardReload_cachedPaths,
    updateDataApplyUpdates_cachedPaths, foldl_addNew_cachedPaths,
    foldl_removeModule_cachedPaths, updateDataDiff_cachedPaths,
    getModules_updateDataDiff, getModules_resetFlags, moduleDiffers_resetFlags,
    cachedPaths_resetFlags]
  unfold updateDataChanged
  cases hA : modules.any (moduleDiffers st0) <;>
    cases hB : (getModules st0).any (updateDataRemovePred modules)
  · have hf : (getModules st0).filter (updateDataRemovePred modules) = [] :=
      (filter_nil_iff_any_false _ _).mpr hB
    simp [hf, hA, hB]
  · have hf : (getModules st0).filter (updateDataRemovePred modules) ≠ [] := by
      intro h
      have hc := (filter_nil_iff_any_false _ _).mp h
      rw [hB] at hc
      exact absurd hc (by decide)
    simp [hf, hA, hB]
  · have hf : (getModules st0).filter (updateDataRemovePred modules) = [] :=
      (filter_nil_iff_any_false _ _).mpr hB
    simp [hf, hA, hB]
  · have hf : (getModules st0).filter (updateDataRemovePred modules) ≠ [] := by
      intro h
      have hc := (filter_nil_iff_any_false _ _).mp h
      rw [hB] at hc
      exact absurd hc (by decide)
    simp [hf, hA, hB]

/-- C6 counterexample: updating `/index.js` changes the module set, so the
diff clears the resolver cache — but the subsequent retranspilation of
`/index.js` resolves its declared `./dep` requirement and repopulates
`cachedPaths`, so after `updateData` returns the map is not empty even
though the module set changed. -/
theorem c6_retranspile_repopulates_cache :
    updateDataChanged reqState
        [("/index.js", reqModuleV2), ("/dep.js", depModule)] = true ∧
      (updateData depOracle reqState
        [("/index.js", reqModuleV2), ("/dep.js", depModule)]).1.cachedPaths =
        [("/", [("./dep", "/dep.js")])] :=
  ⟨by decide, by decide⟩

theorem TranspiledModule.transpile_isTestFile (tm : TranspiledModule)
    (oracle : String → String → List String → Option String)
    (st : ManagerState) :
    ((tm.transpile oracle st).2).isTestFile = tm.isTestFile := by
  unfold TranspiledModule.transpile
  dsimp only
  split <;> rfl

theorem cacheEraseGuarded_transpiledModules (st : ManagerState)
    (d r : String) :
    (cacheEraseGuarded st d r).transpiledModules = st.transpiledModules := by
  unfold cacheEraseGuarded
  split
  · rfl
  · split
    · rfl
    · split <;> rfl

theorem resolveNoCacheSync_transpiledModules (st : ManagerState)
    (oracle : String → String → List String → Option String)
    (path currentPath : String) (exts : List String) (d : String) :
    ((resolveNoCacheSync st oracle path currentPath exts d).1).transpiledModules
      = st.transpiledModules := by
  unfold resolveNoCacheSync
  dsimp only
  split
  · exact cacheWrite_transpiledModules _ _ _ _
  · split
    · exact cacheEraseGuarded_transpiledModules _ _ _
    · split
      · exact cacheWrite_transpiledModules _ _ _ _
      · split
        · exact cacheWrite_transpiledModules _ _ _ _
        · exact (cacheEraseGuarded_transpiledModules _ _ _).trans
            (cacheWrite_transpiledModules _ _ _ _)

theorem resolveModuleSync_transpiledModules (st : ManagerState)
    (oracle : String → String → List String → Option String)
    (path currentPath : String) (exts : List String) :
    ((resolveModuleSync st oracle path currentPath exts).1).transpiledModules
      = st.transpiledModules := by
  unfold resolveModuleSync
  dsimp only
  split
  · split <;> exact ensureDir_transpiledModules _ _
  · rw [resolveNoCacheSync_transpiledModules, ensureDir_transpiledModules]

theorem transpileResolveDeps_transpiledModules
    (oracle : String → String → List String → Option String)
    (modulePath : String) :
    ∀ (rs : List String) (st : ManagerState),
      ((transpileResolveDeps oracle modulePath rs st).1).transpiledModules =
        st.transpiledModules := by
  intro rs
  induction rs with
  | nil => intro st; rfl
  | cons r tl ih =>
    intro st
    unfold transpileResolveDeps
    dsimp only
    split
    · rw [ih, resolveModuleSync_transpiledModules]
    · exact resolveModuleSync_transpiledModules _ _ _ _ _

theorem transpile_transpiledModules (tm : TranspiledModule)
    (oracle : String → String → List String → Option String)
    (st : ManagerState) :
    ((tm.transpile oracle st).1).transpiledModules = st.transpiledModules := by
  unfold TranspiledModule.transpile
  dsimp only
  split <;> exact transpileResolveDeps_transpiledModules _ _ _ _

theorem lookupTM_eq_of_tms (st1 st2 : ManagerState)
    (h : st1.transpiledModules = st2.transpiledModules) (k : String × String) :
    lookupTM st1 k = lookupTM st2 k := by
  unfold lookupTM
  rw [h]

theorem lookupTM_setTM_ne (st : ManagerState) (k0 k : String × String)
    (tm0 : TranspiledModule) (h : k ≠ k0) :
    lookupTM (setTM st k0 tm0) k = lookupTM st k := by
  obtain ⟨ka, kb⟩ := k
  obtain ⟨k0a, k0b⟩ := k0
  unfold setTM
  cases he : alookup st.transpiledModules (k0a, k0b).1 with
  | none => rfl
  | some entry =>
    unfold lookupTM
    dsimp only
    by_cases h1 : ka = k0a
    · have h2 : kb ≠ k0b := by
        intro h2
        exact h (by rw [h1, h2])
      rw [h1, alookup_aset_self, he]
      dsimp only
      exact alookup_aset_ne _ _ _ _ h2
    · rw [alookup_aset_ne _ _ _ _ h1]

theorem lookupTM_setTM_cases (st : ManagerState) (k0 k : String × String)
    (tm0 tm : TranspiledModule)
    (h : lookupTM (setTM st k0 tm0) k = some tm) :
    tm = tm0 ∨ lookupTM st k = some tm := by
  by_cases hk : k = k0
  · subst hk
    unfold setTM at h
    cases he : alookup st.transpiledModules k.1 with
    | none =>
      rw [he] at h
      exact Or.inr h
    | some entry =>
      rw [he] at h
      unfold lookupTM at h
      dsimp only at h
      rw [alookup_aset_self] at h
      dsimp only at h
      rw [alookup_aset_self] at h
      refine Or.inl ?_
      injection h with h
      exact h.symm
  · rw [lookupTM_setTM_ne st k0 k tm0 hk] at h
    exact Or.inr h

theorem updateDataResetTests_lookup_ne :
    ∀ (keys : List (String × String)) (st : ManagerState)
      (k : String × String), (∀ k0 ∈ keys, k ≠ k0) →
      lookupTM (updateDataResetTests st keys) k = lookupTM st k := by
  intro keys
  induction keys with
  | nil => intro st k _; rfl
  | cons k0 tl ih =>
    intro st k hdis
    have hne : k ≠ k0 := hdis k0 (List.mem_cons_self _ _)
    have htl : ∀ x ∈ tl, k ≠ x := fun x hx => hdis x (List.mem_cons_of_mem _ hx)
    have hfold : lookupTM (updateDataResetTests st (k0 :: tl)) k =
        lookupTM (updateDataResetTests
          (match lookupTM st k0 with
           | some tm => setTM st k0 tm.resetTranspilation
           | none => st) tl) k := rfl
    rw [hfold, ih _ k htl]
    cases hl : lookupTM st k0 with
    | none => rfl
    | some tm =>
      simp only [hl]
      exact lookupTM_setTM_ne st k0 k tm.resetTranspilation hne

theorem updateDataKeepPred_of_some (st : ManagerState) (k : String × String)
    (tm : TranspiledModule) (h : lookupTM st k = some tm) :
    updateDataKeepPred st k = !tm.isTestFile := by
  unfold updateDataKeepPred
  rw [h]

theorem updateDataKeepPred_of_none (st : ManagerState) (k : String × String)
    (h : lookupTM st k = none) : updateDataKeepPred st k = false := by
  unfold updateDataKeepPred
  rw [h]

theorem updateDataTestPred_of_some (st : ManagerState) (k : String × String)
    (tm : TranspiledModule) (h : lookupTM st k = some tm) :
    updateDataTestPred st k = tm.isTestFile := by
  unfold updateDataTestPred
  rw [h]

theorem transpilePass_fold_no_test
    (oracle : String → String → List String → Option String) :
    ∀ (keys : List (String × String)) (st : ManagerState)
      (acc : List (Option TranspiledModule)),
      (∀ k ∈ keys, ∀ tm, lookupTM st k = some tm → tm.isTestFile = false) →
      (∀ r ∈ acc, ∀ tm, r = some tm → tm.isTestFile = false) →
      ∀ r ∈ (keys.foldl (updateDataTranspileStep oracle) (st, acc)).2, ∀ tm,
        r = some tm → tm.isTestFile = false := by
  intro keys
  induction keys with
  | nil =>
    intro st acc _ hacc
    exact hacc
  | cons k tl ih =>
    intro st acc hkeys hacc
    rw [List.foldl_cons]
    cases hl : lookupTM st k with
    | none =>
      have hstep : updateDataTranspileStep oracle (st, acc) k =
          (st, acc ++ [none]) := by
        unfold updateDataTranspileStep
        simp only [hl]
      rw [hstep]
      refine ih st (acc ++ [none]) ?_ ?_
      · intro k' hk' tm hl'
        exact hkeys k' (List.mem_cons_of_mem _ hk') tm hl'
      · intro r hr tm hr'
        rcases List.mem_append.mp hr with hmem | hmem
        · exact hacc r hmem tm hr'
        · simp at hmem
          subst hmem
          simp at hr'
    | some tm0 =>
      have hflag : tm0.isTestFile = false :=
        hkeys k (List.mem_cons_self _ _) tm0 hl
      by_cases hs : tm0.shouldTranspile = true
      · have hstep : updateDataTranspileStep oracle (st, acc) k =
            (setTM (tm0.transpile oracle st).1 k (tm0.transpile oracle st).2,
             acc ++ [some (tm0.transpile oracle st).2]) := by
          unfold updateDataTranspileStep
          simp only [hl]
          rw [if_pos hs]
        rw [hstep]
        refine ih _ _ ?_ ?_
        · intro k' hk' tm hl'
          rcases lookupTM_setTM_cases (tm0.transpile oracle st).1 k k'
              (tm0.transpile oracle st).2 tm hl' with h | h
          · subst h
            rw [TranspiledModule.transpile_isTestFile]
            exact hflag
          · rw [lookupTM_eq_of_tms (tm0.transpile oracle st).1 st
                (transpile_transpiledModules tm0 oracle st) k'] at h
            exact hkeys k' (List.mem_cons_of_mem _ hk') tm h
        · intro r hr tm hr'
          rcases List.mem_append.mp hr with hmem | hmem
          · exact hacc r hmem tm hr'
          · simp at hmem
            subst hmem
            have htm : tm = (tm0.transpile oracle st).2 := by
              injection hr' with h2
              exact h2.symm
            subst htm
            rw [TranspiledModule.transpile_isTestFile]
            exact hflag
      · have hstep : updateDataTranspileStep oracle (st, acc) k =
            (st, acc ++ [none]) := by
          unfold updateDataTranspileStep
          simp only [hl]
          rw [if_neg hs]
        rw [hstep]
        refine ih st (acc ++ [none]) ?_ ?_
        · intro k' hk' tm hl'
          exact hkeys k' (List.mem_cons_of_mem _ hk') tm hl'
        · intro r hr tm hr'
          rcases List.mem_append.mp hr with hmem | hmem
          · exact hacc r hmem tm hr'
          · simp at hmem
            subst hmem
            simp at hr'

theorem resetTests_then_transpile_no_test
    (oracle : String → String → List String → Option String)
    (st : ManagerState) (all : List (String × String)) :
    ∀ r ∈ (updateDataTranspilePass oracle
        (updateDataResetTests st (all.filter (updateDataTestPred st)))
        (all.filter (updateDataKeepPred st))).2,
      ∀ tm, r = some tm → tm.isTestFile = false := by
  unfold updateDataTranspilePass
  refine transpilePass_fold_no_test oracle _ _ _ ?_ ?_
  · intro k hk tm hl
    have hkeep : updateDataKeepPred st k = true := (List.mem_filter.mp hk).2
    have hdis : ∀ k0 ∈ all.filter (updateDataTestPred st), k ≠ k0 := by
      intro k0 hk0 heq
      subst heq
      have htest : updateDataTestPred st k = true := (List.mem_filter.mp hk0).2
      cases hlk : lookupTM st k with
      | none =>
        rw [updateDataKeepPred_of_none st k hlk] at hkeep
        exact absurd hkeep (by decide)
      | some tm1 =>
        rw [updateDataKeepPred_of_some st k tm1 hlk] at hkeep
        rw [updateDataTestPred_of_some st k tm1 hlk] at htest
        rw [htest] at hkeep
        exact absurd hkeep (by decide)
    rw [updateDataResetTests_lookup_ne _ st k hdis] at hl
    rw [updateDataKeepPred_of_some st k tm hl] at hkeep
    simpa using hkeep
  · intro r hr
    simp at hr

/-- C10: the array returned by `updateData` contains no TranspiledModule
flagged `isTestFile`: test files in the update set only get their
transpilation state reset and are excluded from the retranspile pass, so
every TM in the result (the remaining entries are the literal `false` the
ineffective `filter(Boolean)` keeps, modelled as `none`) has the flag
unset. -/
theorem c10_no_test_file_retranspiled
    (oracle : String → String → List String → Option String)
    (st0 : ManagerState) (modules : List (String × Module)) :
    ∀ r ∈ (updateData oracle st0 modules).2, ∀ tm, r = some tm →
      tm.isTestFile = false := by
  unfold updateData updateDataPreTranspile
  dsimp only
  exact resetTests_then_transpile_no_test oracle _ _

theorem c10_no_test_file_retranspiled_witness :
    some bTMNew ∈
        (updateData noneOracle bState
          [("/b.js", { path := "/b.js", code := "new" })]).2 ∧
      bTMNew.isTestFile = false :=
  ⟨by decide,
   c10_no_test_file_retranspiled noneOracle bState
     [("/b.js", { path := "/b.js", code := "new" })] (some bTMNew) (by decide)
     bTMNew rfl⟩

theorem foldl_flatten_eq {α β : Type} (f : β → α → β) :
    ∀ (L : List (List α)) (init : β),
      L.flatten.foldl f init = L.foldl (fun acc l => l.foldl f acc) init := by
  intro L
  induction L with
  | nil => intro init; rfl
  | cons hd tl ih =>
    intro init
    rw [List.flatten_cons, List.foldl_append, List.foldl_cons, ih]

theorem serialize_transpiledModules_eq (st : ManagerState)
    (entryPath : Option String) :
    (serialize st entryPath).transpiledModules =
      (getTranspiledModules st).foldl (serializeStep st) [] := by
  unfold serialize getTranspiledModules serializeStep
  dsimp only
  rw [foldl_flatten_eq]
  simp only [List.foldl_map]

theorem serializeFold_alookup_notmem (st : ManagerState) :
    ∀ (tms : List TranspiledModule)
      (acc : List (String × SerializedTranspiledModule)) (i : String),
      i ∉ tms.map TranspiledModule.getId →
      alookup (tms.foldl (serializeStep st) acc) i = alookup acc i := by
  intro tms
  induction tms with
  | nil => intro acc i _; rfl
  | cons hd tl ih =>
    intro acc i hni
    rw [List.map_cons] at hni
    have h1 : i ≠ hd.getId := fun he => hni (he ▸ List.mem_cons_self _ _)
    have h2 : i ∉ tl.map TranspiledModule.getId :=
      fun hm => hni (List.mem_cons_of_mem _ hm)
    rw [List.foldl_cons, ih _ _ h2]
    unfold serializeStep
    by_cases hp : persistCondition st hd = true
    · rw [if_pos hp]
      exact alookup_aset_ne _ _ _ _ h1
    · rw [if_neg hp]

theorem serializeFold_alookup (st : ManagerState) :
    ∀ (tms : List TranspiledModule)
      (acc : List (String × SerializedTranspiledModule))
      (tm : TranspiledModule), tm ∈ tms →
      (tms.map TranspiledModule.getId).Nodup →
      alookup (tms.foldl (serializeStep st) acc) tm.getId =
        (if persistCondition st tm = true then some (serializeTM tm)
         else alookup acc tm.getId) := by
  intro tms
  induction tms with
  | nil => intro acc tm hmem; exact absurd hmem (List.not_mem_nil _)
  | cons hd tl ih =>
    intro acc tm hmem hnd
    rw [List.map_cons] at hnd
    obtain ⟨hhd, htl⟩ := List.nodup_cons.mp hnd
    rw [List.foldl_cons]
    rcases List.mem_cons.mp hmem with heq | hmemtl
    · subst heq
      rw [serializeFold_alookup_notmem st tl _ _ hhd]
      unfold serializeStep
      by_cases hp : persistCondition st tm = true
      · rw [if_pos hp, if_pos hp]
        exact alookup_aset_self _ _ _
      · rw [if_neg hp, if_neg hp]
    · have hne : tm.getId ≠ hd.getId := by
        intro he
        exact hhd (he ▸ List.mem_map_of_mem TranspiledModule.getId hmemtl)
      rw [ih (serializeStep st acc hd) tm hmemtl htl]
      by_cases hp : persistCondition st tm = true
      · rw [if_pos hp, if_pos hp]
      · rw [if_neg hp, if_neg hp]
        unfold serializeStep
        by_cases hq : persistCondition st hd = true
        · rw [if_pos hq]
          exact alookup_aset_ne _ _ _ _ hne
        · rw [if_neg hq]

/-- C5: `serialize` writes a TranspiledModule into the persisted
`transpiledModules` record under its id exactly when the persist condition
holds — the manifest does not already provide the content for its module
path, or it is a `.js` module with no precomputed require list (it required
transpilation), or it was dynamically downloaded; a TM failing all three
disjuncts is omitted.  Stated for registries whose TM ids are pairwise
distinct, as the JS object keys guarantee. -/
theorem c5_serialize_persists_iff (st : ManagerState)
    (entryPath : Option String) (tm : TranspiledModule)
    (hmem : tm ∈ getTranspiledModules st)
    (hids : ((getTranspiledModules st).map TranspiledModule.getId).Nodup) :
    alookup (serialize st entryPath).transpiledModules tm.getId =
      (if persistCondition st tm = true then some (serializeTM tm)
       else none) := by
  rw [serialize_transpiledModules_eq]
  exact serializeFold_alookup st (getTranspiledModules st) [] tm hmem hids

theorem c5_serialize_persists_iff_witness :
    bTM ∈ getTranspiledModules bState ∧
      ((getTranspiledModules bState).map TranspiledModule.getId).Nodup ∧
      alookup (serialize bState none).transpiledModules bTM.getId =
        (if persistCondition bState bTM = true then some (serializeTM bTM)
         else none) :=
  ⟨by decide, by decide,
   c5_serialize_persists_iff bState none bTM (by decide) (by decide)⟩

/-- C9: for every path argument starting with `webpack:` and every current
path, `resolveTranspiledModule` (in both its synchronous and asynchronous
forms, selected by the `async` flag) throws the error with message `Cannot
resolve webpack path` before performing any resolution or touching the
cache: the returned state is the input state unchanged. -/
theorem c9_webpack_path_rejected (st : ManagerState)
    (oracle : String → String → List String → Option String)
    (path currentPath : String) (exts : Option (List String)) (async : Bool)
    (h : strStartsWith path "webpack:" = true) :
    resolveTranspiledModule st oracle path currentPath exts async =
      (st, ResolveResult.err
        (ResolveError.genericError "Cannot resolve webpack path")) := by
  unfold resolveTranspiledModule
  simp [h]

theorem c9_webpack_path_rejected_witness :
    (strStartsWith "webpack://internal" "webpack:" = true) ∧
    resolveTranspiledModule (mkState [] [] emptyManifest) noneOracle
        "webpack://internal" "/index.js" none false =
      (mkState [] [] emptyManifest,
       ResolveResult.err
         (ResolveError.genericError "Cannot resolve webpack path")) :=
  ⟨rfl, c9_webpack_path_rejected _ _ _ _ _ _ rfl⟩

/-- C4: `load(data)` restores nothing when `data.version` differs from
`SCRIPT_VERSION` or `data.dependenciesQuery` differs from the current
dependency query: the cached data is discarded, the whole Manager state (in
particular the TranspiledModule registry, empty for a fresh manager) is
left unchanged, and no error propagates to the caller (the operation is
total). -/
theorem c4_load_mismatch_discards (st : ManagerState) (d : SerializedData)
    (h : d.version ≠ SCRIPT_VERSION ∨
         d.dependenciesQuery ≠ getDependencyQuery st) :
    load st (some d) = st := by
  unfold load
  rcases h with h | h
  · simp [h]
  · simp [h]

theorem c4_load_mismatch_discards_witness :
    (mismatchData.version ≠ SCRIPT_VERSION ∨
       mismatchData.dependenciesQuery ≠ getDependencyQuery aEntryState) ∧
    load aEntryState (some mismatchData) = aEntryState :=
  ⟨Or.inl (by decide), c4_load_mismatch_discards _ _ (Or.inl (by decide))⟩

/-- C8 (amended): when a hard reload is pending and this is not the first
load, `evaluateModule` reloads the host page and returns immediately
without evaluating any transpiled module, leaving the state unchanged.  On
the first load the source evaluates even with the flag set (see the
counterexample). -/
theorem c8_hard_reload_skips_evaluation (st : ManagerState) (m : Module)
    (force : Bool) (h1 : st.hardReload = true) (h2 : st.isFirstLoad = false) :
    evaluateModule st m force = (st, EvalOutcome.pageReloaded) := by
  unfold evaluateModule
  simp [h1, h2]

/-- C8 counterexample: with the hard-reload flag set but on the first load,
the claim predicts a page reload and no evaluation, yet the source (whose
guard also requires the load not to be the first one) evaluates the module
normally. -/
theorem c8_first_load_still_evaluates :
    firstLoadState.hardReload = true ∧
    (evaluateModule firstLoadState { path := "/index.js", code := "x" }
        false).2 = EvalOutcome.evaluated "x" :=
  ⟨rfl, rfl⟩

theorem c8_hard_reload_skips_evaluation_witness :
    hardReloadState.hardReload = true ∧ hardReloadState.isFirstLoad = false ∧
    evaluateModule hardReloadState { path := "/index.js", code := "x" } false =
      (hardReloadState, EvalOutcome.pageReloaded) :=
  ⟨rfl, rfl, c8_hard_reload_skips_evaluation _ _ _ rfl rfl⟩

/-- C3 (amended): during `resolveTranspiledModuleAsync`, a resolution
failure whose error has type module-not-found with the dependency flag set
(a `ModuleNotFoundError(isDependency=true)`) triggers the automatic npm
fetch via `downloadDependency` on the error path, under the query split
from the request; every other resolution error — including
`DependencyNotFoundError` — propagates unchanged to the caller. -/
theorem c3_download_on_flagged_module_not_found (st : ManagerState)
    (oracle : String → String → List String → Option String)
    (fetcher : String → Module) (path : String) (tm : TranspiledModule)
    (exts : Option (List String)) (e : ResolveError)
    (h : (resolveTranspiledModule st oracle path tm.module.path exts false).2 =
         ResolveResult.err e) :
    resolveTranspiledModuleAsync st oracle fetcher path (some tm) exts =
      retryOrPropagate
        (resolveTranspiledModule st oracle path tm.module.path exts false).1
        fetcher path e := by
  rcases hre : resolveTranspiledModule st oracle path tm.module.path exts false
    with ⟨st1, res⟩
  rw [hre] at h
  simp only at h
  subst h
  unfold resolveTranspiledModuleAsync retryOrPropagate
  simp only [hre]

/-- C3 counterexample: a resolution failure of kind
`DependencyNotFoundError` (request `lodash`, unknown to the manifest) does
not trigger `downloadDependency`: the error propagates unchanged and the
module the fetcher would provide never enters the store, refuting the claim
that `DependencyNotFoundError` is the retried kind. -/
theorem c3_dependency_not_found_propagates :
    (resolveTranspiledModuleAsync (mkState [] [] emptyManifest) noneOracle
        lodashFetcher "lodash" (some indexTM) none).2 =
      ResolveResult.err (ResolveError.dependencyNotFound "lodash" "/index.js") ∧
    alookup (resolveTranspiledModuleAsync (mkState [] [] emptyManifest)
        noneOracle lodashFetcher "lodash" (some indexTM) none).1.transpiledModules
      "/node_modules/lodash/index.js" = none :=
  ⟨by decide, by decide⟩

theorem c3_download_on_flagged_module_not_found_witness :
    (resolveTranspiledModuleAsync (mkState [] [] lodashManifest) noneOracle
        lodashFetcher "lodash" (some indexTM) none).2 =
      ResolveResult.ok
        { module := { path := "/node_modules/lodash/index.js", code := "fetched" },
          query := "" } := by
  have h := c3_download_on_flagged_module_not_found (mkState [] [] lodashManifest)
    noneOracle lodashFetcher "lodash" indexTM none
    (ResolveError.moduleNotFound "lodash" true "/index.js") (by decide)
  rw [h]
  decide

end Sandbox
